import Mathlib

/-! Vector kernel, array extractor and scalar adapters of
`expression/builtin_x_json_array.go`.

A shallow embedding of the Go file and a verification of its specification.

Conventions of the embedding.

* `float64` is a carrier `F` with the operations the code uses: the literal `0.0` (`Zero F`),
  `+`, `*`, `/` and `math.Sqrt` (passed as the function `Sqrt`).  Statements that only depend on
  the control flow are proved for every such carrier, hence for IEEE 754 binary64 as well;
  statements of exact arithmetic are proved at `F = ℝ` with `Sqrt = Real.sqrt`, concrete
  decimal inputs are evaluated at `F = ℚ`, and the carrier `float64` with `math.Sqrt` is a
  model of IEEE 754 binary64 on which the kernel is evaluated with its roundings and on
  which the statements about rounded results are proved.
* A Go slice is a `List`; the `nil` slice is `[]` (Go's `len`, `range` and indexing do not
  tell them apart).
* A Go result tuple `(v, err)` is a Lean tuple whose error component is an `Option GoError`
  (`none` is the `nil` error).
-/

namespace expression

/-! ## Errors -/

/-- Error values: `errors.New(message)` and `errors.Wrap(err, message)` of the `errors`
package.  Errors produced by the host (expression evaluation, JSON coercion) are arbitrary
values of this type. -/
inductive GoError where
  | New (message : String)
  | Wrap (err : GoError) (message : String)
  deriving DecidableEq, Repr

/-- The call `errors.New(message)`. -/
abbrev errors.New (message : String) : GoError := GoError.New message

/-- The call `errors.Wrap(err, message)` on a non-nil `err`. -/
abbrev errors.Wrap (err : GoError) (message : String) : GoError := GoError.Wrap err message

/-! ## Vector kernel -/

section Kernel

variable {F : Type} [Zero F] [Add F] [Mul F]

/-- The function `DotProduct(a, b []float64) (float64, error)`.
The loop `for i := range a { sum += a[i] * b[i] }` visits the indices `0, …, len(a)-1` in
order; both index expressions are in bounds there because `len(a) == len(b)` was checked. -/
def DotProduct (a b : List F) : F × Option GoError :=
  if a.length ≠ b.length then
    (0, some (errors.New "Invalid vectors: two arrays of the same length were expected"))
  else if a.length = 0 then
    (0, some (errors.New "Invalid vectors: two non-zero length arrays were expected"))
  else
    let sum := (List.range a.length).foldl (fun sum i => sum + a.getD i 0 * b.getD i 0) 0
    (sum, none)

/-- The three accumulators `sum`, `s1`, `s2` of the loop of `Cosine`. -/
structure CosineAcc (F : Type) where
  sum : F
  s1 : F
  s2 : F

/-- One iteration of the loop body of `Cosine` at index `i`. -/
def Cosine.step (a b : List F) (acc : CosineAcc F) (i : Nat) : CosineAcc F :=
  { sum := acc.sum + a.getD i 0 * b.getD i 0
    s1 := acc.s1 + a.getD i 0 * a.getD i 0
    s2 := acc.s2 + b.getD i 0 * b.getD i 0 }

/-- The function `Cosine(a, b []float64) (float64, error)`; `Sqrt` is `math.Sqrt`. -/
def Cosine [Div F] (Sqrt : F → F) (a b : List F) : F × Option GoError :=
  if a.length ≠ b.length then
    (0, some (errors.New "Invalid vectors: two arrays of the same length were expected"))
  else if a.length = 0 then
    (0, some (errors.New "Invalid vectors: two non-zero length arrays were expected"))
  else
    let acc := (List.range a.length).foldl (Cosine.step a b) { sum := 0, s1 := 0, s2 := 0 }
    (acc.sum / (Sqrt acc.s1 * Sqrt acc.s2), none)

/-- The specification's dot product: the left fold
`((0 + a[0]*b[0]) + a[1]*b[1]) + … + a[n-1]*b[n-1]` over the paired entries. -/
def dotFoldSpec (a b : List F) : F :=
  (List.zipWith (fun x y => x * y) a b).foldl (fun s p => s + p) 0

/-- The specification's cosine similarity: the dot product divided by the product of the two
Euclidean norms, each norm being the square root of a vector's dot product with itself. -/
def cosineSpec [Div F] (Sqrt : F → F) (a b : List F) : F :=
  (DotProduct a b).1 / (Sqrt (DotProduct a a).1 * Sqrt (DotProduct b b).1)

end Kernel

/-! ## Array extractor -/

/-- The declarations of package `types` that the extractor uses and that are declared outside
this file, taken as parameters: the type `J` of `types.BinaryJSON` values with its field
`TypeCode`, the constant `types.JSONTypeCodeArray`, the methods `GetElemCount` (a count read
from an unsigned field, hence a `Nat`) and `ArrayGetElem`, and the coercion
`types.ConvertJSONToFloat(fakeSctx, elem)`. -/
structure JSONHost (J F : Type) where
  TypeCode : J → Nat
  JSONTypeCodeArray : Nat
  GetElemCount : J → Nat
  ArrayGetElem : J → Nat → J
  ConvertJSONToFloat : J → F × Option GoError

/-- The variables of the body of `AsFloat64Array`: the named results `values` and `err`, the
loop counter `i`, and a record `converted` of the indices whose element was handed to
`ConvertJSONToFloat`, in call order (kept to state which elements are coerced). -/
structure ExtractVars (F : Type) where
  values : List F
  err : Option GoError
  i : Nat
  converted : List Nat

section Extractor

variable {J F : Type} [Zero F]

/-- The loop `for i := 0; i < arrCount && err == nil; i++ { elem := binJson.ArrayGetElem(i);
values[i], err = types.ConvertJSONToFloat(fakeSctx, elem) }`. -/
def AsFloat64Array.loop (h : JSONHost J F) (binJson : J) (arrCount : Nat)
    (st : ExtractVars F) : ExtractVars F :=
  if st.i < arrCount ∧ st.err = none then
    let elem := h.ArrayGetElem binJson st.i
    let r := h.ConvertJSONToFloat elem
    AsFloat64Array.loop h binJson arrCount
      { values := st.values.set st.i r.1
        err := r.2
        i := st.i + 1
        converted := st.converted ++ [st.i] }
  else st
termination_by arrCount - st.i
decreasing_by simp_wf; omega

/-- The body of `AsFloat64Array`, returning all of its variables at the `return`. -/
def AsFloat64Array.run (h : JSONHost J F) (binJson : J) : ExtractVars F :=
  if h.TypeCode binJson ≠ h.JSONTypeCodeArray then
    { values := []
      err := some (errors.New "Invalid JSON Array: an array of numbers were expected")
      i := 0
      converted := [] }
  else
    let arrCount := h.GetElemCount binJson
    AsFloat64Array.loop h binJson arrCount
      { values := List.replicate arrCount 0, err := none, i := 0, converted := [] }

/-- The function `AsFloat64Array(binJson types.BinaryJSON) (values []float64, err error)`. -/
def AsFloat64Array (h : JSONHost J F) (binJson : J) : List F × Option GoError :=
  ((AsFloat64Array.run h binJson).values, (AsFloat64Array.run h binJson).err)

/-- The indices of the elements that a call of `AsFloat64Array` hands to
`ConvertJSONToFloat`, in call order. -/
def AsFloat64Array.converted (h : JSONHost J F) (binJson : J) : List Nat :=
  (AsFloat64Array.run h binJson).converted

end Extractor

/-- An argument expression of the host: its method `EvalJSON(ctx, row)` returns a JSON value,
a null flag and an error.  The host's evaluation may have effects, so it takes and returns a
host state `σ` (a stub that counts its calls is one such expression). -/
structure Expression (σ R J : Type) where
  EvalJSON : R → σ → (J × Bool × Option GoError) × σ

/-- The result tuple `(values []float64, isNull bool, err error)` of `ExtractFloat64Array`. -/
structure ExtractResult (F : Type) where
  values : List F
  isNull : Bool
  err : Option GoError

/-- The result tuple `(float64, bool, error)` of `evalReal`: value, null flag, error. -/
structure RealResult (F : Type) where
  val : F
  isNull : Bool
  err : Option GoError

/-- The embedded `baseBuiltinFunc`: the argument expressions `args`.  The function classes are
registered with exactly two arguments and `getFunction` rejects any other count through
`verifyArgs`, so `args[0]` and `args[1]` are the whole slice. -/
structure baseBuiltinFunc (σ R J : Type) where
  args : Fin 2 → Expression σ R J

section Adapter

variable {σ R J F : Type} [Zero F] [Add F] [Mul F] [Div F]

/-- The function `ExtractFloat64Array(ctx, expr, row) (values []float64, isNull bool, err error)`. -/
def ExtractFloat64Array (h : JSONHost J F) (expr : Expression σ R J) (row : R) (w : σ) :
    ExtractResult F × σ :=
  let r := expr.EvalJSON row w
  let json1 := r.1.1
  let isNull := r.1.2.1
  let err := r.1.2.2
  if isNull || err.isSome then
    ({ values := [], isNull := isNull, err := err }, r.2)
  else
    let r2 := AsFloat64Array h json1
    if r2.2.isSome then
      ({ values := [], isNull := false, err := r2.2 }, r.2)
    else
      ({ values := r2.1, isNull := false, err := none }, r.2)

/-- The method `(b *builtinXcosinesimSig) evalReal(row chunk.Row) (float64, bool, error)`. -/
def builtinXcosinesimSig.evalReal (h : JSONHost J F) (Sqrt : F → F)
    (b : baseBuiltinFunc σ R J) (row : R) (w : σ) : RealResult F × σ :=
  let zero : F := 0
  let x1 := ExtractFloat64Array h (b.args 0) row w
  if x1.1.isNull || x1.1.err.isSome then
    ({ val := zero, isNull := x1.1.isNull, err := x1.1.err }, x1.2)
  else
    let x2 := ExtractFloat64Array h (b.args 1) row x1.2
    if x2.1.isNull || x2.1.err.isSome then
      ({ val := zero, isNull := x2.1.isNull, err := x2.1.err }, x2.2)
    else
      let c := Cosine Sqrt x1.1.values x2.1.values
      match c.2 with
      | some cosErr =>
        ({ val := zero, isNull := false
           err := some (errors.Wrap cosErr
             "Invalid JSON Array: an array of non-zero numbers was expected") }, x2.2)
      | none => ({ val := c.1, isNull := false, err := none }, x2.2)

/-- The method `(b *builtinXdotproductSig) evalReal(row chunk.Row) (float64, bool, error)`. -/
def builtinXdotproductSig.evalReal (h : JSONHost J F)
    (b : baseBuiltinFunc σ R J) (row : R) (w : σ) : RealResult F × σ :=
  let zero : F := 0
  let x1 := ExtractFloat64Array h (b.args 0) row w
  if x1.1.isNull || x1.1.err.isSome then
    ({ val := zero, isNull := x1.1.isNull, err := x1.1.err }, x1.2)
  else
    let x2 := ExtractFloat64Array h (b.args 1) row x1.2
    if x2.1.isNull || x2.1.err.isSome then
      ({ val := zero, isNull := x2.1.isNull, err := x2.1.err }, x2.2)
    else
      let d := DotProduct x1.1.values x2.1.values
      match d.2 with
      | some cosErr =>
        ({ val := zero, isNull := false
           err := some (errors.Wrap cosErr
             "Invalid JSON Array: an array of non-zero numbers were expected") }, x2.2)
      | none => ({ val := d.1, isNull := false, err := none }, x2.2)

end Adapter

/-! ## A concrete host, used to evaluate the definitions on explicit inputs -/

/-- Modelled from the spec: the JSON value handed over by the host, as the tagged union
"number | array | other" of the design notes (the binary encoding `types.BinaryJSON` is
declared outside this file).  Numbers carry a value of the float carrier, other values
their text. -/
inductive JSONValue (F : Type) where
  | number (x : F)
  | array (elems : List (JSONValue F))
  | other (text : String)

/-- Modelled from the spec: the type code of a `JSONValue` (`3` is the array code). -/
def JSONValue.TypeCode {F : Type} : JSONValue F → Nat
  | .number _ => 11
  | .array _ => 3
  | .other _ => 12

/-- Modelled from the spec: the element count of a JSON array. -/
def JSONValue.GetElemCount {F : Type} : JSONValue F → Nat
  | .array elems => elems.length
  | _ => 0

/-- Modelled from the spec: the `i`-th element of a JSON array. -/
def JSONValue.ArrayGetElem {F : Type} : JSONValue F → Nat → JSONValue F
  | .array elems, i => elems.getD i (.other "")
  | v, _ => v

/-- Modelled from the spec: the host's JSON-to-float coercion: a number coerces to itself,
any other value "cannot be coerced to a number". -/
def JSONValue.ConvertJSONToFloat {F : Type} [Zero F] : JSONValue F → F × Option GoError
  | .number x => (x, none)
  | _ => (0, some (errors.New "cannot convert JSON value to float"))

/-- Modelled from the spec: the host of package `types` over `JSONValue F`. -/
def specHost (F : Type) [Zero F] : JSONHost (JSONValue F) F where
  TypeCode := JSONValue.TypeCode
  JSONTypeCodeArray := 3
  GetElemCount := JSONValue.GetElemCount
  ArrayGetElem := JSONValue.ArrayGetElem
  ConvertJSONToFloat := JSONValue.ConvertJSONToFloat

/-- A constant expression: evaluates to the given outcome and leaves the host state alone. -/
def constExpr {σ R J : Type} (out : J × Bool × Option GoError) : Expression σ R J where
  EvalJSON := fun _ w => (out, w)

/-- A stub expression over a call counter: every evaluation increments the counter. -/
def countingExpr {R J : Type} (out : J × Bool × Option GoError) : Expression Nat R J where
  EvalJSON := fun _ w => (out, w + 1)

/-- The `baseBuiltinFunc` whose `args` slice is `[arg0, arg1]`. -/
def twoArgs {σ R J : Type} (arg0 arg1 : Expression σ R J) : baseBuiltinFunc σ R J where
  args := ![arg0, arg1]

/-! ## The carrier `float64`

Go's `float64` is IEEE 754 binary64.  The model below keeps the three kinds of values and
computes every operation exactly on the integers before rounding once, to nearest with ties
to even, as the standard prescribes for `+`, `*`, `/` and the square root.  Each operation
of the loop body `sum += a[i] * b[i]` is rounded on its own, as on amd64; the final
expression `sum / (math.Sqrt(s1) * math.Sqrt(s2))` has no product feeding an addition, so
its three roundings are the same on every architecture. -/

/-- Go's `float64`: a finite value `(-1)^neg * m * 2^e` (a normal number has
`2^52 ≤ m < 2^53` and `-1074 ≤ e ≤ 971`, a subnormal number or a zero has `m < 2^52` and
`e = -1074`), an infinity, or a NaN. -/
inductive float64 where
  | finite (neg : Bool) (m : Nat) (e : Int)
  | inf (neg : Bool)
  | nan
  deriving DecidableEq, Repr

/-- The number of binary digits of `n`, counted with `fuel` halvings at most. -/
def float64.bitLenAux : Nat → Nat → Nat
  | 0, _ => 0
  | fuel + 1, n => if n = 0 then 0 else float64.bitLenAux fuel (n / 2) + 1

/-- The number of binary digits of `n` (`0` for `n = 0`). -/
def float64.bitLen (n : Nat) : Nat := float64.bitLenAux n n

/-- The integer part of the binary logarithm of the positive fraction `n / d`. -/
def float64.ilog2 (n d : Nat) : Int :=
  let e0 : Int := (float64.bitLen n : Int) - (float64.bitLen d : Int)
  if 0 ≤ e0 then (if d * 2 ^ e0.toNat ≤ n then e0 else e0 - 1)
  else (if d ≤ n * 2 ^ (-e0).toNat then e0 else e0 - 1)

/-- The integer nearest to the fraction `n / d`, the even one of the two on a tie. -/
def float64.roundNearestEven (n d : Nat) : Nat :=
  if 2 * (n % d) < d then n / d
  else if d < 2 * (n % d) then n / d + 1
  else if (n / d) % 2 = 0 then n / d else n / d + 1

/-- The binary64 value nearest to `(-1)^neg * n / d` (ties to even): the quantum is
`2^(⌊log2 (n/d)⌋ - 52)`, not below `2^-1074` (gradual underflow), and a result of
`2^1024` or more is an infinity (overflow). -/
def float64.round (neg : Bool) (n d : Nat) : float64 :=
  if n = 0 then float64.finite neg 0 (-1074)
  else
    let q : Int := max (float64.ilog2 n d - 52) (-1074)
    let m : Nat :=
      if 0 ≤ q then float64.roundNearestEven n (d * 2 ^ q.toNat)
      else float64.roundNearestEven (n * 2 ^ (-q).toNat) d
    if m = 2 ^ 53 then
      (if 971 < q + 1 then float64.inf neg else float64.finite neg (2 ^ 52) (q + 1))
    else if 971 < q then float64.inf neg else float64.finite neg m q

/-- The binary64 value nearest to `(-1)^neg * m * 2^e`. -/
def float64.roundDyadic (neg : Bool) (m : Nat) (e : Int) : float64 :=
  if 0 ≤ e then float64.round neg (m * 2 ^ e.toNat) 1
  else float64.round neg m (2 ^ (-e).toNat)

/-- The operator `*` of `float64`. -/
def float64.mul : float64 → float64 → float64
  | .nan, _ => .nan
  | _, .nan => .nan
  | .inf s, .inf t => .inf (xor s t)
  | .inf s, .finite t m _ => if m = 0 then .nan else .inf (xor s t)
  | .finite s m _, .inf t => if m = 0 then .nan else .inf (xor s t)
  | .finite s m1 e1, .finite t m2 e2 => float64.roundDyadic (xor s t) (m1 * m2) (e1 + e2)

/-- The operator `+` of `float64`. -/
def float64.add : float64 → float64 → float64
  | .nan, _ => .nan
  | _, .nan => .nan
  | .inf s, .inf t => if s = t then .inf s else .nan
  | .inf s, .finite _ _ _ => .inf s
  | .finite _ _ _, .inf t => .inf t
  | .finite s m1 e1, .finite t m2 e2 =>
    let e : Int := min e1 e2
    let x : Int := (if s then -1 else 1) * ((m1 * 2 ^ (e1 - e).toNat : Nat) : Int)
    let y : Int := (if t then -1 else 1) * ((m2 * 2 ^ (e2 - e).toNat : Nat) : Int)
    if x + y = 0 then .finite (s && t) 0 (-1074)
    else float64.roundDyadic (decide (x + y < 0)) (x + y).natAbs e

/-- The operator `/` of `float64`. -/
def float64.div : float64 → float64 → float64
  | .nan, _ => .nan
  | _, .nan => .nan
  | .inf _, .inf _ => .nan
  | .inf s, .finite t _ _ => .inf (xor s t)
  | .finite s _ _, .inf t => .finite (xor s t) 0 (-1074)
  | .finite s m1 e1, .finite t m2 e2 =>
    if m2 = 0 then (if m1 = 0 then .nan else .inf (xor s t))
    else if 0 ≤ e1 - e2 then float64.round (xor s t) (m1 * 2 ^ (e1 - e2).toNat) m2
    else float64.round (xor s t) m1 (m2 * 2 ^ (e2 - e1).toNat)

/-- The digits of the integer square root of `n`, from bit `k - 1` down to bit `0`. -/
def float64.isqrtAux (n : Nat) : Nat → Nat → Nat
  | 0, r => r
  | k + 1, r =>
    if (r + 2 ^ k) * (r + 2 ^ k) ≤ n then float64.isqrtAux n k (r + 2 ^ k)
    else float64.isqrtAux n k r

/-- The integer square root: the greatest `r` with `r * r ≤ n`. -/
def float64.isqrt (n : Nat) : Nat := float64.isqrtAux n (float64.bitLen n / 2 + 1) 0

/-- The function `math.Sqrt`.  A positive finite `m * 2^e` is written `M * 2^(2k)` with
`M ≥ 2^112`; with `r` the integer square root of `M` the result is the rounding of `r * 2^k`
when `r * r = M`, and otherwise of `(r + 1/2) * 2^k`, which lies on the same side of every
rounding boundary as the irrational root. -/
def math.Sqrt : float64 → float64
  | .nan => .nan
  | .inf s => if s then .nan else .inf false
  | .finite s m e =>
    if m = 0 then .finite s 0 (-1074)
    else if s then .nan
    else
      let t : Nat := (e + 1200).toNat
      let M : Nat := m * 2 ^ (112 + t % 2)
      let k : Int := ((t / 2 : Nat) : Int) - 656
      let r : Nat := float64.isqrt M
      if r * r = M then float64.roundDyadic false r k
      else float64.roundDyadic false (2 * r + 1) (k - 1)

/-- The rational number that a finite `float64` denotes (`0` for an infinity or a NaN). -/
def float64.toRat : float64 → ℚ
  | .finite s m e => (if s then -1 else 1) * (m : ℚ) * (2 : ℚ) ^ e
  | _ => 0

/-- The statement `|v - c| ≤ tol` about a `float64`: `v` is a number (not an infinity, not a
NaN) and the number it denotes is within `tol` of `c`. -/
def float64.within (v : float64) (c tol : ℚ) : Prop :=
  match v with
  | .finite _ _ _ => |float64.toRat v - c| ≤ tol
  | _ => False

/-- The statement that a `float64` is a positive finite number: not a zero, not a negative
number, not an infinity and not a NaN. -/
def float64.posFinite (s : float64) : Prop :=
  ∃ (m : Nat) (e : Int), s = float64.finite false m e ∧ 0 < m

/-- The literal `0.0`. -/
instance : Zero float64 := ⟨float64.finite false 0 (-1074)⟩

/-- The operator `+`. -/
instance : Add float64 := ⟨float64.add⟩

/-- The operator `*`. -/
instance : Mul float64 := ⟨float64.mul⟩

/-- The operator `/`. -/
instance : Div float64 := ⟨float64.div⟩

/-- The `float64` nearest to the decimal literal `1.1`. -/
def float64.lit_1_1 : float64 := .finite false 4953959590107546 (-52)

/-- The `float64` nearest to the decimal literal `1.2`. -/
def float64.lit_1_2 : float64 := .finite false 5404319552844595 (-52)

/-- The `float64` nearest to the decimal literal `1.3`. -/
def float64.lit_1_3 : float64 := .finite false 5854679515581645 (-52)

/-- The `float64` nearest to the decimal literal `1.4`. -/
def float64.lit_1_4 : float64 := .finite false 6305039478318694 (-52)

/-- The `float64` of the decimal literal `1.5`. -/
def float64.lit_1_5 : float64 := .finite false 6755399441055744 (-52)

/-! ## Lemmas on the kernel loops -/

section KernelLemmas

variable {F : Type} [Zero F] [Add F] [Mul F]

/-- The index loop of `DotProduct` from any start value is the left fold over the paired
entries, when the two vectors have the same length. -/
theorem dotLoop_eq_foldl (a : List F) :
    ∀ (b : List F) (z : F), a.length = b.length →
      (List.range a.length).foldl (fun sum i => sum + a.getD i 0 * b.getD i 0) z
        = (List.zipWith (fun x y => x * y) a b).foldl (fun s p => s + p) z := by
  induction a with
  | nil => intro b z _; simp
  | cons x a ih =>
    intro b z hlen
    cases b with
    | nil => simp at hlen
    | cons y b =>
      have hlen2 : a.length = b.length := by simpa using hlen
      have := ih b (z + x * y) hlen2
      simp only [List.length_cons, List.range_succ_eq_map, List.foldl_cons, List.foldl_map,
        List.zipWith_cons_cons, List.getD_cons_zero, List.getD_cons_succ]
      exact this

/-- The `sum` accumulator of the loop of `Cosine` is the loop of `DotProduct(a, b)`. -/
theorem cosineLoop_sum (a b : List F) (n : Nat) (acc : CosineAcc F) :
    ((List.range n).foldl (Cosine.step a b) acc).sum
      = (List.range n).foldl (fun sum i => sum + a.getD i 0 * b.getD i 0) acc.sum := by
  induction n with
  | zero => simp
  | succ n ih => simp [List.range_succ, List.foldl_append, Cosine.step, ih]

/-- The `s1` accumulator of the loop of `Cosine` is the loop of `DotProduct(a, a)`. -/
theorem cosineLoop_s1 (a b : List F) (n : Nat) (acc : CosineAcc F) :
    ((List.range n).foldl (Cosine.step a b) acc).s1
      = (List.range n).foldl (fun sum i => sum + a.getD i 0 * a.getD i 0) acc.s1 := by
  induction n with
  | zero => simp
  | succ n ih => simp [List.range_succ, List.foldl_append, Cosine.step, ih]

/-- The `s2` accumulator of the loop of `Cosine` is the loop of `DotProduct(b, b)`. -/
theorem cosineLoop_s2 (a b : List F) (n : Nat) (acc : CosineAcc F) :
    ((List.range n).foldl (Cosine.step a b) acc).s2
      = (List.range n).foldl (fun sum i => sum + b.getD i 0 * b.getD i 0) acc.s2 := by
  induction n with
  | zero => simp
  | succ n ih => simp [List.range_succ, List.foldl_append, Cosine.step, ih]

/-- On vectors of equal non-zero length `DotProduct` returns its loop's sum and no error. -/
theorem DotProduct_ok (a b : List F) (hne : a ≠ []) (hlen : a.length = b.length) :
    DotProduct a b
      = ((List.range a.length).foldl (fun sum i => sum + a.getD i 0 * b.getD i 0) 0, none) := by
  have h0 : a.length ≠ 0 := by simpa using hne
  simp [DotProduct, ← hlen, h0]

/-- On vectors of equal non-zero length `Cosine` returns the quotient of its three loop
sums and no error. -/
theorem Cosine_ok [Div F] (Sqrt : F → F) (a b : List F) (hne : a ≠ []) (hlen : a.length = b.length) :
    Cosine Sqrt a b
      = ((List.range a.length).foldl (fun sum i => sum + a.getD i 0 * b.getD i 0) 0
          / (Sqrt ((List.range a.length).foldl (fun sum i => sum + a.getD i 0 * a.getD i 0) 0)
            * Sqrt ((List.range a.length).foldl (fun sum i => sum + b.getD i 0 * b.getD i 0) 0)),
        none) := by
  have h0 : a.length ≠ 0 := by simpa using hne
  simp [Cosine, h0, ← hlen, cosineLoop_sum, cosineLoop_s1, cosineLoop_s2]

end KernelLemmas

/-! ## The vector kernel: validation -/

section KernelClaims

variable {F : Type} [Zero F] [Add F] [Mul F]

/-- C1: for non-empty vectors `a`, `b` of different lengths, `DotProduct(a, b)` and
`Cosine(a, b)` both return the value `0` together with the error
"Invalid vectors: two arrays of the same length were expected". -/
theorem C1_length_mismatch [Div F] (Sqrt : F → F) (a b : List F) (ha : a ≠ []) (hb : b ≠ [])
    (hlen : a.length ≠ b.length) :
    DotProduct a b
        = (0, some (errors.New "Invalid vectors: two arrays of the same length were expected"))
      ∧ Cosine Sqrt a b
        = (0, some (errors.New "Invalid vectors: two arrays of the same length were expected")) := by
  have _ := ha
  have _ := hb
  simp [DotProduct, Cosine, hlen]

/-- C2, as amended: for the empty vector `a` and every vector `b`, `DotProduct(a, b)` and
`Cosine(a, b)` both fail with value `0`; the error is "Invalid vectors: two non-zero length
arrays were expected" when `b` is empty as well, and "Invalid vectors: two arrays of the same
length were expected" when `b` is not empty, the lengths being compared first. -/
theorem C2_empty_first_argument [Div F] (Sqrt : F → F) (b : List F) :
    DotProduct ([] : List F) b
        = (0, some (errors.New
            (if b.length = 0 then "Invalid vectors: two non-zero length arrays were expected"
             else "Invalid vectors: two arrays of the same length were expected")))
      ∧ Cosine Sqrt ([] : List F) b
        = (0, some (errors.New
            (if b.length = 0 then "Invalid vectors: two non-zero length arrays were expected"
             else "Invalid vectors: two arrays of the same length were expected"))) := by
  cases b with
  | nil => simp [DotProduct, Cosine]
  | cons y b => simp [DotProduct, Cosine]

/-- C3: `DotProduct(a, b)` returns an error exactly when `len(a) != len(b)` or `len(a) == 0`,
and so does `Cosine(a, b)`; in particular `Cosine` returns a value and the `nil` error on
vectors of equal non-zero length whose entries are all zero. -/
theorem C3_error_iff_bad_length [Div F] (Sqrt : F → F) (a b : List F) :
    ((DotProduct a b).2 ≠ none ↔ (a.length ≠ b.length ∨ a.length = 0))
      ∧ ((Cosine Sqrt a b).2 ≠ none ↔ (a.length ≠ b.length ∨ a.length = 0))
      ∧ (a.length = b.length → a.length ≠ 0 →
          (DotProduct a b).2 = none ∧ (Cosine Sqrt a b).2 = none)
      ∧ (((∀ x ∈ a, x = 0) ∨ (∀ y ∈ b, y = 0)) → a.length = b.length → a.length ≠ 0 →
          (Cosine Sqrt a b).2 = none) := by
  have hdot : a.length = b.length → a.length ≠ 0 → (DotProduct a b).2 = none := by
    intro h1 h0
    simp [DotProduct, ← h1, h0]
  have hcos : a.length = b.length → a.length ≠ 0 → (Cosine Sqrt a b).2 = none := by
    intro h1 h0
    simp [Cosine, ← h1, h0]
  refine ⟨?_, ?_, fun h1 h0 => ⟨hdot h1 h0, hcos h1 h0⟩, fun _ h1 h0 => hcos h1 h0⟩
  · by_cases h1 : a.length = b.length
    · by_cases h0 : a.length = 0
      · simp [DotProduct, ← h1, h0]
      · rw [hdot h1 h0]
        constructor
        · intro h; exact absurd rfl h
        · rintro (h | h)
          · exact absurd h1 h
          · exact absurd h h0
    · simp [DotProduct, h1]
  · by_cases h1 : a.length = b.length
    · by_cases h0 : a.length = 0
      · simp [Cosine, ← h1, h0]
      · rw [hcos h1 h0]
        constructor
        · intro h; exact absurd rfl h
        · rintro (h | h)
          · exact absurd h1 h
          · exact absurd h h0
    · simp [Cosine, h1]

/-- C4: for non-empty vectors of equal length `DotProduct(a, b)` returns, with the `nil`
error, exactly the left fold `((0 + a[0]*b[0]) + a[1]*b[1]) + … + a[n-1]*b[n-1]`. -/
theorem C4_dot_product_is_left_fold (a b : List F) (hne : a ≠ [])
    (hlen : a.length = b.length) :
    DotProduct a b = (dotFoldSpec a b, none) := by
  rw [DotProduct_ok a b hne hlen, dotLoop_eq_foldl a b 0 hlen]
  rfl

/-- C6: for non-empty vectors of equal length the single-pass `Cosine(a, b)` returns, with
the `nil` error, `DotProduct(a, b) / (Sqrt(DotProduct(a, a)) * Sqrt(DotProduct(b, b)))`. -/
theorem C6_cosine_refines_dot_products [Div F] (Sqrt : F → F) (a b : List F) (hne : a ≠ [])
    (hlen : a.length = b.length) :
    Cosine Sqrt a b = (cosineSpec Sqrt a b, none) := by
  have hb : b ≠ [] := by
    intro hb
    apply hne
    rw [hb] at hlen
    exact List.length_eq_zero.mp hlen
  rw [Cosine_ok Sqrt a b hne hlen]
  unfold cosineSpec
  rw [DotProduct_ok a b hne hlen, DotProduct_ok a a hne rfl, DotProduct_ok b b hb rfl, hlen]

/-- In any carrier where `0 + 0 * 0 = 0` (IEEE 754 binary64 is one), the cosine of the
one-entry zero vector with itself is the quotient `0 / (Sqrt 0 * Sqrt 0)`. -/
theorem Cosine_zero_singleton [Div F] (Sqrt : F → F) (h0 : (0 : F) + 0 * 0 = 0) :
    Cosine Sqrt [(0 : F)] [0] = (0 / (Sqrt 0 * Sqrt 0), none) := by
  simp [Cosine, Cosine.step, List.range_succ, h0]

end KernelClaims

/-! ## Sums of squares over the reals -/

/-- Over the reals the left fold of the squares of a vector never falls below its start
value. -/
theorem selfFold_ge (a : List ℝ) :
    ∀ z : ℝ, z ≤ (List.zipWith (fun x y => x * y) a a).foldl (fun s p => s + p) z := by
  induction a with
  | nil => intro z; simp
  | cons x a ih =>
    intro z
    simp only [List.zipWith_cons_cons, List.foldl_cons]
    have h1 := ih (z + x * x)
    have h2 : 0 ≤ x * x := mul_self_nonneg x
    linarith

/-- Over the reals the left fold of the squares of a vector with a non-zero entry is
strictly above its start value. -/
theorem selfFold_gt (a : List ℝ) :
    ∀ z : ℝ, (∃ x ∈ a, x ≠ 0) →
      z < (List.zipWith (fun x y => x * y) a a).foldl (fun s p => s + p) z := by
  induction a with
  | nil => intro z h; simp at h
  | cons x a ih =>
    intro z h
    simp only [List.zipWith_cons_cons, List.foldl_cons]
    by_cases hx : x = 0
    · have hrest : ∃ y ∈ a, y ≠ 0 := by
        obtain ⟨y, hy, hy0⟩ := h
        rcases List.mem_cons.mp hy with rfl | hmem
        · exact absurd hx hy0
        · exact ⟨y, hmem, hy0⟩
      have h1 := ih (z + x * x) hrest
      have h2 : 0 ≤ x * x := mul_self_nonneg x
      linarith
    · have h1 := selfFold_ge a (z + x * x)
      have h2 : 0 < x * x := mul_self_pos.mpr hx
      linarith

/-! ## Rounding in the carrier `float64` -/

/-- The number `0` has no binary digit. -/
theorem float64.bitLenAux_zero (fuel : Nat) : float64.bitLenAux fuel 0 = 0 := by
  cases fuel <;> simp [float64.bitLenAux]

/-- With enough fuel the digit count `b` of a positive `n` satisfies `n < 2^b ≤ 2 n`. -/
theorem float64.bitLenAux_spec : ∀ (fuel n : Nat), n ≤ fuel → 0 < n →
    n < 2 ^ float64.bitLenAux fuel n ∧ 2 ^ float64.bitLenAux fuel n ≤ 2 * n := by
  intro fuel
  induction fuel with
  | zero => intro n h1 h2; omega
  | succ fuel ih =>
    intro n h1 h2
    have hn0 : n ≠ 0 := by omega
    simp only [float64.bitLenAux, hn0, if_false]
    by_cases h : n / 2 = 0
    · have : n = 1 := by omega
      subst this
      simp [float64.bitLenAux_zero]
    · obtain ⟨i1, i2⟩ := ih (n / 2) (by omega) (by omega)
      rw [pow_succ]
      constructor <;> omega

/-- The digit count `b` of a positive `n` satisfies `n < 2^b ≤ 2 n`. -/
theorem float64.bitLen_spec (n : Nat) (hn : 0 < n) :
    n < 2 ^ float64.bitLen n ∧ 2 ^ float64.bitLen n ≤ 2 * n :=
  float64.bitLenAux_spec n n (Nat.le_refl n) hn

/-- The digit loop of the integer square root keeps `r * r ≤ n < (r + 2^k)²`. -/
theorem float64.isqrtAux_spec (n : Nat) : ∀ (k r : Nat), r * r ≤ n → n < (r + 2 ^ k) * (r + 2 ^ k) →
    float64.isqrtAux n k r * float64.isqrtAux n k r ≤ n
      ∧ n < (float64.isqrtAux n k r + 1) * (float64.isqrtAux n k r + 1) := by
  intro k
  induction k with
  | zero =>
    intro r h1 h2
    simpa [float64.isqrtAux] using ⟨h1, h2⟩
  | succ k ih =>
    intro r h1 h2
    simp only [float64.isqrtAux]
    split_ifs with h
    · apply ih _ h
      have : r + 2 ^ k + 2 ^ k = r + 2 ^ (k + 1) := by rw [pow_succ]; omega
      rw [this]
      exact h2
    · exact ih _ h1 (by omega)

/-- The integer square root `r` of `n` satisfies `r * r ≤ n < (r + 1)²`. -/
theorem float64.isqrt_spec (n : Nat) :
    float64.isqrt n * float64.isqrt n ≤ n
      ∧ n < (float64.isqrt n + 1) * (float64.isqrt n + 1) := by
  unfold float64.isqrt
  apply float64.isqrtAux_spec
  · simp
  · rcases Nat.eq_zero_or_pos n with h0 | hpos
    · subst h0; simp
    · obtain ⟨h1, _⟩ := float64.bitLen_spec n hpos
      have h3 : float64.bitLen n ≤ 2 * (float64.bitLen n / 2 + 1) := by omega
      have h4 : 2 ^ float64.bitLen n ≤ 2 ^ (2 * (float64.bitLen n / 2 + 1)) :=
        Nat.pow_le_pow_right (by norm_num) h3
      have h5 : (2 : Nat) ^ (2 * (float64.bitLen n / 2 + 1))
          = 2 ^ (float64.bitLen n / 2 + 1) * 2 ^ (float64.bitLen n / 2 + 1) := by
        rw [two_mul, pow_add]
      simp only [Nat.zero_add]
      omega


/-- A criterion for `|A - n / d| ≤ 1/2` without division. -/
theorem abs_sub_div_le_half (A n d : ℚ) (hd : 0 < d) (h1 : 2 * (A * d - n) ≤ d)
    (h2 : 2 * (n - A * d) ≤ d) : |A - n / d| ≤ 1 / 2 := by
  have e : A - n / d = (A * d - n) / d := by field_simp
  rw [e, abs_le]
  constructor
  · rw [le_div_iff₀ hd]; linarith
  · rw [div_le_iff₀ hd]; linarith

/-- The rounded quotient is within `1/2` of the fraction. -/
theorem float64.roundNearestEven_spec (n d : Nat) (hd : 0 < d) :
    |((float64.roundNearestEven n d : Nat) : ℚ) - (n : ℚ) / d| ≤ 1 / 2 := by
  have hdm := Nat.div_add_mod n d
  have hmod := Nat.mod_lt n hd
  have hn : (n : ℚ) = (d : ℚ) * ((n / d : Nat) : ℚ) + ((n % d : Nat) : ℚ) := by
    exact_mod_cast hdm.symm
  have hdq : (0 : ℚ) < d := by exact_mod_cast hd
  apply abs_sub_div_le_half _ _ _ hdq
  · unfold float64.roundNearestEven
    split_ifs with h1 h2 h3
    · have : (0 : ℚ) ≤ ((n % d : Nat) : ℚ) := by positivity
      rw [hn]; nlinarith
    · have h2q : (d : ℚ) < 2 * ((n % d : Nat) : ℚ) := by exact_mod_cast h2
      have hmq : ((n % d : Nat) : ℚ) < d := by exact_mod_cast hmod
      rw [hn]; push_cast; nlinarith
    · have : (0 : ℚ) ≤ ((n % d : Nat) : ℚ) := by positivity
      rw [hn]; nlinarith
    · have h2q : (d : ℚ) ≤ 2 * ((n % d : Nat) : ℚ) := by exact_mod_cast (Nat.le_of_not_lt h1)
      rw [hn]; push_cast; nlinarith
  · unfold float64.roundNearestEven
    split_ifs with h1 h2 h3
    · have h1q : 2 * ((n % d : Nat) : ℚ) < d := by exact_mod_cast h1
      rw [hn]; nlinarith
    · have hmq : ((n % d : Nat) : ℚ) < d := by exact_mod_cast hmod
      rw [hn]; push_cast; nlinarith
    · have h2q : 2 * ((n % d : Nat) : ℚ) ≤ d := by exact_mod_cast (Nat.le_of_not_lt h2)
      rw [hn]; nlinarith
    · have hmq : ((n % d : Nat) : ℚ) < d := by exact_mod_cast hmod
      rw [hn]; push_cast; nlinarith

/-- The binary logarithm `E` of `n / d` satisfies `2^E ≤ n / d < 2^(E+1)`. -/
theorem float64.ilog2_spec (n d : Nat) (hn : 0 < n) (hd : 0 < d) :
    (2 : ℚ) ^ (float64.ilog2 n d) * d ≤ n ∧ (n : ℚ) < (2 : ℚ) ^ (float64.ilog2 n d + 1) * d := by
  obtain ⟨a1, a2⟩ := float64.bitLen_spec n hn
  obtain ⟨b1, b2⟩ := float64.bitLen_spec d hd
  have h2 : (2 : ℚ) ≠ 0 := by norm_num
  unfold float64.ilog2
  simp only
  split_ifs with h0 h1 h1
  · -- 0 ≤ e0, d * 2^c ≤ n
    obtain ⟨c, hc⟩ := Int.eq_ofNat_of_zero_le h0
    have hab : float64.bitLen n = float64.bitLen d + c := by omega
    rw [hc] at h1 ⊢
    simp only [Int.toNat_ofNat] at h1
    rw [zpow_add_one₀ h2, zpow_natCast]
    constructor
    · have : ((d * 2 ^ c : Nat) : ℚ) ≤ n := by exact_mod_cast h1
      push_cast at this; linarith
    · have e : 2 ^ float64.bitLen n = 2 ^ float64.bitLen d * 2 ^ c := by rw [hab, pow_add]
      have : n < 2 * d * 2 ^ c := by
        calc n < 2 ^ float64.bitLen n := a1
          _ = 2 ^ float64.bitLen d * 2 ^ c := e
          _ ≤ 2 * d * 2 ^ c := Nat.mul_le_mul_right _ b2
      have : ((n : Nat) : ℚ) < ((2 * d * 2 ^ c : Nat) : ℚ) := by exact_mod_cast this
      push_cast at this; linarith
  · obtain ⟨c, hc⟩ := Int.eq_ofNat_of_zero_le h0
    have hab : float64.bitLen n = float64.bitLen d + c := by omega
    rw [hc] at h1 ⊢
    simp only [Int.toNat_ofNat] at h1
    rw [sub_add_cancel, zpow_sub_one₀ h2, zpow_natCast]
    constructor
    · have e : 2 ^ float64.bitLen n = 2 ^ float64.bitLen d * 2 ^ c := by rw [hab, pow_add]
      have : d * 2 ^ c ≤ 2 * n := by
        calc d * 2 ^ c ≤ 2 ^ float64.bitLen d * 2 ^ c :=
              Nat.mul_le_mul_right _ (Nat.le_of_lt b1)
          _ = 2 ^ float64.bitLen n := e.symm
          _ ≤ 2 * n := a2
      have : ((d * 2 ^ c : Nat) : ℚ) ≤ ((2 * n : Nat) : ℚ) := by exact_mod_cast this
      push_cast at this; linarith
    · have : n < d * 2 ^ c := Nat.lt_of_not_le h1
      have : ((n : Nat) : ℚ) < ((d * 2 ^ c : Nat) : ℚ) := by exact_mod_cast this
      push_cast at this; linarith
  · -- e0 < 0, d ≤ n * 2^c
    have h0' : (float64.bitLen n : Int) - (float64.bitLen d : Int) < 0 := lt_of_not_le h0
    obtain ⟨c, hc⟩ := Int.eq_ofNat_of_zero_le (show (0 : Int) ≤ -((float64.bitLen n : Int) - (float64.bitLen d : Int)) by omega)
    have hab : float64.bitLen d = float64.bitLen n + c := by omega
    have hE : (float64.bitLen n : Int) - (float64.bitLen d : Int) = -(c : Int) := by omega
    rw [hc] at h1
    simp only [Int.toNat_ofNat] at h1
    rw [hE, zpow_add_one₀ h2, zpow_neg, zpow_natCast]
    have hpos : (0 : ℚ) < 2 ^ c := by positivity
    constructor
    · have : ((d : Nat) : ℚ) ≤ ((n * 2 ^ c : Nat) : ℚ) := by exact_mod_cast h1
      push_cast at this
      rw [inv_mul_le_iff₀ hpos]; linarith
    · have e : 2 ^ float64.bitLen d = 2 ^ float64.bitLen n * 2 ^ c := by rw [hab, pow_add]
      have : n * 2 ^ c < 2 * d := by
        calc n * 2 ^ c < 2 ^ float64.bitLen n * 2 ^ c :=
              Nat.mul_lt_mul_of_pos_right a1 (by positivity)
          _ = 2 ^ float64.bitLen d := e.symm
          _ ≤ 2 * d := b2
      have : ((n * 2 ^ c : Nat) : ℚ) < ((2 * d : Nat) : ℚ) := by exact_mod_cast this
      push_cast at this
      rw [mul_assoc, ← div_eq_inv_mul, lt_div_iff₀ hpos]; linarith
  · have h0' : (float64.bitLen n : Int) - (float64.bitLen d : Int) < 0 := lt_of_not_le h0
    obtain ⟨c, hc⟩ := Int.eq_ofNat_of_zero_le (show (0 : Int) ≤ -((float64.bitLen n : Int) - (float64.bitLen d : Int)) by omega)
    have hab : float64.bitLen d = float64.bitLen n + c := by omega
    have hE : (float64.bitLen n : Int) - (float64.bitLen d : Int) = -(c : Int) := by omega
    rw [hc] at h1
    simp only [Int.toNat_ofNat] at h1
    rw [sub_add_cancel, hE, zpow_sub_one₀ h2, zpow_neg, zpow_natCast]
    have hpos : (0 : ℚ) < 2 ^ c := by positivity
    constructor
    · have e : 2 ^ float64.bitLen d = 2 ^ float64.bitLen n * 2 ^ c := by rw [hab, pow_add]
      have : d ≤ 2 * n * 2 ^ c := by
        calc d ≤ 2 ^ float64.bitLen d := Nat.le_of_lt b1
          _ = 2 ^ float64.bitLen n * 2 ^ c := e
          _ ≤ 2 * n * 2 ^ c := Nat.mul_le_mul_right _ a2
      have : ((d : Nat) : ℚ) ≤ ((2 * n * 2 ^ c : Nat) : ℚ) := by exact_mod_cast this
      push_cast at this
      have e2 : ((2 : ℚ) ^ c)⁻¹ * 2⁻¹ * d = d / (2 * 2 ^ c) := by
        rw [div_eq_mul_inv, mul_inv]; ring
      rw [e2, div_le_iff₀ (by positivity)]; linarith
    · have : n * 2 ^ c < d := Nat.lt_of_not_le h1
      have : ((n * 2 ^ c : Nat) : ℚ) < ((d : Nat) : ℚ) := by exact_mod_cast this
      push_cast at this
      rw [← div_eq_inv_mul, lt_div_iff₀ hpos]; linarith


/-- The significand chosen by `round`. -/
theorem float64.round_cases (neg : Bool) (n d : Nat) (hn : 0 < n) (hd : 0 < d) :
    ∃ m : Nat,
      |(m : ℚ) - (n : ℚ) / d / (2 : ℚ) ^ (max (float64.ilog2 n d - 52) (-1074))| ≤ 1 / 2
      ∧ float64.round neg n d
        = (if m = 2 ^ 53 then
            (if 971 < max (float64.ilog2 n d - 52) (-1074) + 1 then float64.inf neg
             else float64.finite neg (2 ^ 52) (max (float64.ilog2 n d - 52) (-1074) + 1))
           else if 971 < max (float64.ilog2 n d - 52) (-1074) then float64.inf neg
           else float64.finite neg m (max (float64.ilog2 n d - 52) (-1074))) := by
  have hn0 : n ≠ 0 := by omega
  have hdq : (0 : ℚ) < d := by exact_mod_cast hd
  by_cases hq : 0 ≤ max (float64.ilog2 n d - 52) (-1074)
  · refine ⟨float64.roundNearestEven n (d * 2 ^ (max (float64.ilog2 n d - 52) (-1074)).toNat),
      ?_, ?_⟩
    · obtain ⟨c, hc⟩ := Int.eq_ofNat_of_zero_le hq
      rw [hc, Int.toNat_ofNat, zpow_natCast]
      have := float64.roundNearestEven_spec n (d * 2 ^ c) (by positivity)
      push_cast at this
      rw [div_div]
      exact this
    · simp [float64.round, hn0, hq]
  · refine ⟨float64.roundNearestEven (n * 2 ^ (-max (float64.ilog2 n d - 52) (-1074)).toNat) d,
      ?_, ?_⟩
    · obtain ⟨c, hc⟩ := Int.eq_ofNat_of_zero_le
        (show (0 : Int) ≤ -max (float64.ilog2 n d - 52) (-1074) by omega)
      have hq2 : max (float64.ilog2 n d - 52) (-1074) = -(c : Int) := by omega
      rw [hc, Int.toNat_ofNat, hq2, zpow_neg, zpow_natCast]
      have := float64.roundNearestEven_spec (n * 2 ^ c) d hd
      push_cast at this
      have e : (n : ℚ) / d / ((2 : ℚ) ^ c)⁻¹ = (n : ℚ) * 2 ^ c / d := by
        field_simp
      rw [e]
      exact this
    · simp [float64.round, hn0, hq]


/-- A natural number within `1/2` of a rational that is at least the integer `A` is at
least `A`. -/
theorem nat_ge_of_near (m A : Nat) (v : ℚ) (h : |(m : ℚ) - v| ≤ 1 / 2) (hv : (A : ℚ) ≤ v) :
    A ≤ m := by
  by_contra hlt
  have h1 : m + 1 ≤ A := by omega
  have h2 : ((m + 1 : Nat) : ℚ) ≤ (A : ℚ) := by exact_mod_cast h1
  push_cast at h2
  have := (abs_le.mp h).1
  linarith

/-- A natural number within `1/2` of a rational that is less than `B + 1/2` for the integer
`B` is at most `B`. -/
theorem nat_le_of_near (m B : Nat) (v : ℚ) (h : |(m : ℚ) - v| ≤ 1 / 2)
    (hv : v < (B : ℚ) + 1 / 2) : m ≤ B := by
  by_contra hlt
  have h1 : B + 1 ≤ m := by omega
  have h2 : ((B + 1 : Nat) : ℚ) ≤ (m : ℚ) := by exact_mod_cast h1
  push_cast at h2
  have := (abs_le.mp h).2
  linarith

/-- Rounding in the normal range: the result is a normal number within the relative error
`2^-53` of the rounded value. -/
theorem float64.round_normal (neg : Bool) (n d : Nat) (hn : 0 < n) (hd : 0 < d)
    (hlo : 1 / (2 : ℚ) ^ 1022 ≤ (n : ℚ) / d)
    (hhi : (n : ℚ) / d < (2 : ℚ) ^ 1024 - (2 : ℚ) ^ 970) :
    ∃ (m : Nat) (e E : Int), float64.round neg n d = float64.finite neg m e
      ∧ 2 ^ 52 ≤ m ∧ m < 2 ^ 53 ∧ -1074 ≤ e ∧ e ≤ 971
      ∧ (2 : ℚ) ^ E ≤ (n : ℚ) / d
      ∧ |(m : ℚ) * (2 : ℚ) ^ e - (n : ℚ) / d| ≤ (2 : ℚ) ^ E / 2 ^ 53 := by
  have hdq : (0 : ℚ) < d := by exact_mod_cast hd
  have h2 : (2 : ℚ) ≠ 0 := by norm_num
  obtain ⟨l1, l2⟩ := float64.ilog2_spec n d hn hd
  have hx1 : (2 : ℚ) ^ (float64.ilog2 n d) ≤ (n : ℚ) / d := by
    rw [le_div_iff₀ hdq]; exact l1
  have hx2 : (n : ℚ) / d < (2 : ℚ) ^ (float64.ilog2 n d + 1) := by
    rw [div_lt_iff₀ hdq]; exact l2
  have hE1 : -1022 ≤ float64.ilog2 n d := by
    by_contra hcon
    have h3 : float64.ilog2 n d + 1 ≤ -1022 := by omega
    have h4 : (2 : ℚ) ^ (float64.ilog2 n d + 1) ≤ (2 : ℚ) ^ (-1022 : Int) :=
      zpow_le_zpow_right₀ (by norm_num) h3
    have h5 : (2 : ℚ) ^ (-1022 : Int) = 1 / (2 : ℚ) ^ 1022 := by
      rw [zpow_neg, zpow_ofNat, one_div]
    exact absurd (lt_of_lt_of_le hx2 (h4.trans h5.le)) (not_lt.mpr hlo)
  have hE2 : float64.ilog2 n d ≤ 1023 := by
    by_contra hcon
    have h3 : (1024 : Int) ≤ float64.ilog2 n d := by omega
    have h4 : (2 : ℚ) ^ (1024 : Int) ≤ (2 : ℚ) ^ (float64.ilog2 n d) :=
      zpow_le_zpow_right₀ (by norm_num) h3
    have h5 : (2 : ℚ) ^ (1024 : Int) = (2 : ℚ) ^ 1024 := zpow_ofNat _ _
    have h6 : (0 : ℚ) < (2 : ℚ) ^ 970 := by positivity
    linarith
  have hq : max (float64.ilog2 n d - 52) (-1074) = float64.ilog2 n d - 52 := by omega
  obtain ⟨m, hm, hres⟩ := float64.round_cases neg n d hn hd
  rw [hq] at hm hres
  have hT : (0 : ℚ) < (2 : ℚ) ^ (float64.ilog2 n d - 52) := zpow_pos (by norm_num) _
  have hTE : (2 : ℚ) ^ (float64.ilog2 n d - 52) * 2 ^ 52 = (2 : ℚ) ^ (float64.ilog2 n d) := by
    rw [zpow_sub₀ h2, zpow_ofNat]; field_simp
  have hTE1 : (2 : ℚ) ^ (float64.ilog2 n d + 1) = (2 : ℚ) ^ (float64.ilog2 n d) * 2 := by
    rw [zpow_add_one₀ h2]
  have hv1 : ((2 ^ 52 : Nat) : ℚ) ≤ (n : ℚ) / d / (2 : ℚ) ^ (float64.ilog2 n d - 52) := by
    rw [le_div_iff₀ hT]; push_cast; linarith
  have hv2 : (n : ℚ) / d / (2 : ℚ) ^ (float64.ilog2 n d - 52) < ((2 ^ 53 : Nat) : ℚ) + 1 / 2 := by
    rw [div_lt_iff₀ hT]; push_cast; nlinarith
  have hm1 : 2 ^ 52 ≤ m := nat_ge_of_near m (2 ^ 52) _ hm hv1
  have hm2 : m ≤ 2 ^ 53 := nat_le_of_near m (2 ^ 53) _ hm hv2
  have herr : |(m : ℚ) * (2 : ℚ) ^ (float64.ilog2 n d - 52) - (n : ℚ) / d|
      ≤ (2 : ℚ) ^ (float64.ilog2 n d) / 2 ^ 53 := by
    have e : (m : ℚ) * (2 : ℚ) ^ (float64.ilog2 n d - 52) - (n : ℚ) / d
        = ((m : ℚ) - (n : ℚ) / d / (2 : ℚ) ^ (float64.ilog2 n d - 52))
          * (2 : ℚ) ^ (float64.ilog2 n d - 52) := by
      field_simp
      ring
    rw [e, abs_mul, abs_of_pos hT]
    have h7 : |(m : ℚ) - (n : ℚ) / d / (2 : ℚ) ^ (float64.ilog2 n d - 52)|
        * (2 : ℚ) ^ (float64.ilog2 n d - 52)
        ≤ 1 / 2 * (2 : ℚ) ^ (float64.ilog2 n d - 52) :=
      mul_le_mul_of_nonneg_right hm hT.le
    have h8 : 1 / 2 * (2 : ℚ) ^ (float64.ilog2 n d - 52)
        ≤ (2 : ℚ) ^ (float64.ilog2 n d) / 2 ^ 53 := by
      rw [le_div_iff₀ (by positivity)]
      have : (2 : ℚ) ^ 53 = 2 ^ 52 * 2 := by norm_num
      rw [this]; linarith
    linarith
  by_cases hm53 : m = 2 ^ 53
  · -- the significand rounds up to the next binade
    have hE3 : float64.ilog2 n d ≤ 1022 := by
      by_contra hcon
      have hE : float64.ilog2 n d = 1023 := by omega
      rw [hE] at hm
      have hT971 : (2 : ℚ) ^ ((1023 : Int) - 52) = (2 : ℚ) ^ 971 := by
        rw [show ((1023 : Int) - 52) = (971 : Int) by norm_num, zpow_ofNat]
      rw [hT971] at hm
      have hv3 : (n : ℚ) / d / (2 : ℚ) ^ 971 < ((2 ^ 53 - 1 : Nat) : ℚ) + 1 / 2 := by
        rw [div_lt_iff₀ (by positivity)]
        have e1 : (((2 ^ 53 - 1 : Nat) : ℚ) + 1 / 2) * (2 : ℚ) ^ 971
            = (2 : ℚ) ^ 1024 - (2 : ℚ) ^ 970 := by norm_num
        rw [e1]; exact hhi
      have := nat_le_of_near m (2 ^ 53 - 1) _ hm hv3
      omega
    refine ⟨2 ^ 52, float64.ilog2 n d - 52 + 1, float64.ilog2 n d, ?_, le_refl _, by norm_num,
      by omega, by omega, hx1, ?_⟩
    · rw [hres, if_pos hm53, if_neg (by omega)]
    · have e : ((2 ^ 52 : Nat) : ℚ) * (2 : ℚ) ^ (float64.ilog2 n d - 52 + 1)
          = (m : ℚ) * (2 : ℚ) ^ (float64.ilog2 n d - 52) := by
        rw [hm53, zpow_add_one₀ h2]; push_cast; ring
      rw [e]; exact herr
  · refine ⟨m, float64.ilog2 n d - 52, float64.ilog2 n d, ?_, hm1, by omega, by omega, by omega,
      hx1, herr⟩
    rw [hres, if_neg hm53, if_neg (by omega)]


/-- Rounding below the normal range: the result is a multiple of `2^-1074` within half a
unit of the rounded value. -/
theorem float64.round_subnormal (neg : Bool) (n d : Nat) (hn : 0 < n) (hd : 0 < d)
    (hhi : (n : ℚ) / d < 1 / (2 : ℚ) ^ 1022) :
    ∃ m : Nat, float64.round neg n d = float64.finite neg m (-1074)
      ∧ m ≤ 2 ^ 52 ∧ |(m : ℚ) - (n : ℚ) / d * 2 ^ 1074| ≤ 1 / 2 := by
  have hdq : (0 : ℚ) < d := by exact_mod_cast hd
  obtain ⟨l1, _⟩ := float64.ilog2_spec n d hn hd
  have hx1 : (2 : ℚ) ^ (float64.ilog2 n d) ≤ (n : ℚ) / d := by
    rw [le_div_iff₀ hdq]; exact l1
  have hE : float64.ilog2 n d ≤ -1023 := by
    by_contra hcon
    have h3 : (-1022 : Int) ≤ float64.ilog2 n d := by omega
    have h4 : (2 : ℚ) ^ (-1022 : Int) ≤ (2 : ℚ) ^ (float64.ilog2 n d) :=
      zpow_le_zpow_right₀ (by norm_num) h3
    have h5 : (2 : ℚ) ^ (-1022 : Int) = 1 / (2 : ℚ) ^ 1022 := by
      rw [zpow_neg, zpow_ofNat, one_div]
    rw [h5] at h4
    exact absurd (lt_of_le_of_lt (h4.trans hx1) hhi) (lt_irrefl _)
  have hq : max (float64.ilog2 n d - 52) (-1074) = -1074 := by omega
  obtain ⟨m, hm, hres⟩ := float64.round_cases neg n d hn hd
  rw [hq] at hm hres
  have h6 : (n : ℚ) / d / (2 : ℚ) ^ (-1074 : Int) = (n : ℚ) / d * 2 ^ 1074 := by
    rw [zpow_neg, zpow_ofNat, div_inv_eq_mul]
  rw [h6] at hm
  have hv : (n : ℚ) / d * 2 ^ 1074 < ((2 ^ 52 : Nat) : ℚ) + 1 / 2 := by
    have h7 : (n : ℚ) / d * 2 ^ 1074 < 1 / (2 : ℚ) ^ 1022 * 2 ^ 1074 :=
      mul_lt_mul_of_pos_right hhi (by positivity)
    have h8 : 1 / (2 : ℚ) ^ 1022 * 2 ^ 1074 = ((2 ^ 52 : Nat) : ℚ) := by norm_num
    rw [h8] at h7
    linarith
  have hm2 : m ≤ 2 ^ 52 := nat_le_of_near m (2 ^ 52) _ hm hv
  refine ⟨m, ?_, hm2, hm⟩
  rw [hres, if_neg (by omega), if_neg (by omega)]

/-- The value that `roundDyadic` rounds, as a fraction of naturals. -/
theorem float64.roundDyadic_eq (neg : Bool) (m : Nat) (e : Int) (hm : 0 < m) :
    ∃ n d : Nat, 0 < n ∧ 0 < d ∧ float64.roundDyadic neg m e = float64.round neg n d
      ∧ (n : ℚ) / d = (m : ℚ) * (2 : ℚ) ^ e := by
  by_cases he : 0 ≤ e
  · obtain ⟨c, hc⟩ := Int.eq_ofNat_of_zero_le he
    refine ⟨m * 2 ^ c, 1, by positivity, by norm_num, ?_, ?_⟩
    · simp [float64.roundDyadic, he, hc]
    · rw [hc, zpow_natCast]; push_cast; simp
  · obtain ⟨c, hc⟩ := Int.eq_ofNat_of_zero_le (show (0 : Int) ≤ -e by omega)
    have he2 : e = -(c : Int) := by omega
    refine ⟨m, 2 ^ c, hm, by positivity, ?_, ?_⟩
    · simp [float64.roundDyadic, he, hc]
    · rw [he2, zpow_neg, zpow_natCast]; push_cast; rw [div_eq_mul_inv]

/-- The number denoted by a non-negative finite `float64`. -/
theorem float64.toRat_finite_pos (m : Nat) (e : Int) :
    float64.toRat (float64.finite false m e) = (m : ℚ) * (2 : ℚ) ^ e := by
  simp [float64.toRat]

/-- The function `math.Sqrt` on a positive finite number, unfolded. -/
theorem math.Sqrt_eq (m : Nat) (e : Int) (hm : 0 < m) :
    math.Sqrt (float64.finite false m e)
      = (if float64.isqrt (m * 2 ^ (112 + (e + 1200).toNat % 2))
            * float64.isqrt (m * 2 ^ (112 + (e + 1200).toNat % 2))
            = m * 2 ^ (112 + (e + 1200).toNat % 2)
         then float64.roundDyadic false
            (float64.isqrt (m * 2 ^ (112 + (e + 1200).toNat % 2)))
            ((((e + 1200).toNat / 2 : Nat) : Int) - 656)
         else float64.roundDyadic false
            (2 * float64.isqrt (m * 2 ^ (112 + (e + 1200).toNat % 2)) + 1)
            ((((e + 1200).toNat / 2 : Nat) : Int) - 656 - 1)) := by
  have hm0 : m ≠ 0 := by omega
  simp [math.Sqrt, hm0]

/-- The square of a number rounded from the integer square root `r` of `M`, or from
`r + 1/2`, is within the relative error `2^-50` of `M`. -/
theorem sqrt_arith (M r ρ y : ℚ) (hr : 2 ^ 56 ≤ r) (h1 : r * r ≤ M)
    (h2 : M < (r + 1) * (r + 1)) (hρ : (ρ = r ∧ r * r = M) ∨ ρ = r + 1 / 2)
    (hy : |y - ρ| ≤ ρ / 2 ^ 53) :
    |y * y - M| ≤ M / 2 ^ 50 := by
  have hr0 : (0 : ℚ) < r := lt_of_lt_of_le (by positivity) hr
  have hrM : r * 2 ^ 56 ≤ M := le_trans (mul_le_mul_of_nonneg_left hr hr0.le) h1
  have hρ0 : 0 < ρ := by
    rcases hρ with ⟨h, _⟩ | h <;> rw [h] <;> linarith
  have hρ2 : ρ * ρ ≤ M + 2 * r := by
    rcases hρ with ⟨h, h'⟩ | h
    · rw [h]; linarith
    · rw [h]; nlinarith
  have hρ3 : M - 2 * r ≤ ρ * ρ := by
    rcases hρ with ⟨h, h'⟩ | h
    · rw [h]; linarith
    · rw [h]; nlinarith
  obtain ⟨hy1, hy2⟩ := abs_le.mp hy
  have hylo : (1 - 1 / 2 ^ 53) * ρ ≤ y := by
    have : ρ / 2 ^ 53 = 1 / 2 ^ 53 * ρ := by ring
    linarith
  have hyhi : y ≤ (1 + 1 / 2 ^ 53) * ρ := by
    have : ρ / 2 ^ 53 = 1 / 2 ^ 53 * ρ := by ring
    linarith
  have hlo0 : 0 ≤ (1 - 1 / 2 ^ 53) * ρ := mul_nonneg (by norm_num) hρ0.le
  have hy0 : 0 ≤ y := le_trans hlo0 hylo
  have hyylo : (1 - 1 / 2 ^ 53) * (1 - 1 / 2 ^ 53) * (ρ * ρ) ≤ y * y := by
    have := mul_self_le_mul_self hlo0 hylo
    linarith
  have hyyhi : y * y ≤ (1 + 1 / 2 ^ 53) * (1 + 1 / 2 ^ 53) * (ρ * ρ) := by
    have := mul_self_le_mul_self hy0 hyhi
    linarith
  have hM0 : 0 ≤ M := le_trans (mul_self_nonneg r) h1
  have hρρ : 0 ≤ ρ * ρ := mul_self_nonneg ρ
  rw [abs_le]
  constructor
  · have : M / 2 ^ 50 = 1 / 2 ^ 50 * M := by ring
    rw [this]
    linarith
  · have : M / 2 ^ 50 = 1 / 2 ^ 50 * M := by ring
    rw [this]
    linarith


/-- Rounding a positive dyadic number of the normal range. -/
theorem float64.roundDyadic_normal (neg : Bool) (R : Nat) (K : Int) (hR : 0 < R)
    (hlo : 1 / (2 : ℚ) ^ 1022 ≤ (R : ℚ) * (2 : ℚ) ^ K)
    (hhi : (R : ℚ) * (2 : ℚ) ^ K < (2 : ℚ) ^ 1024 - (2 : ℚ) ^ 970) :
    ∃ (m : Nat) (e E : Int), float64.roundDyadic neg R K = float64.finite neg m e
      ∧ 2 ^ 52 ≤ m ∧ m < 2 ^ 53 ∧ -1074 ≤ e ∧ e ≤ 971
      ∧ (2 : ℚ) ^ E ≤ (R : ℚ) * (2 : ℚ) ^ K
      ∧ |(m : ℚ) * (2 : ℚ) ^ e - (R : ℚ) * (2 : ℚ) ^ K| ≤ (2 : ℚ) ^ E / 2 ^ 53 := by
  obtain ⟨n, d, hn, hd, hrd, hval⟩ := float64.roundDyadic_eq neg R K hR
  rw [← hval] at hlo hhi ⊢
  rw [hrd]
  exact float64.round_normal neg n d hn hd hlo hhi

/-- A normal number `y = mq * 2^eq` rounded from a `ρ` below `2^512 - 2^458` has a square
below the overflow threshold. -/
theorem square_no_overflow (mq : Nat) (eq E : Int) (ρ : ℚ) (hmq1 : 2 ^ 52 ≤ mq)
    (hmq2 : mq < 2 ^ 53) (hE : (2 : ℚ) ^ E ≤ ρ)
    (herr : |(mq : ℚ) * (2 : ℚ) ^ eq - ρ| ≤ (2 : ℚ) ^ E / 2 ^ 53)
    (hρ : ρ < 2 ^ 512 - 2 ^ 458) :
    (mq : ℚ) * (2 : ℚ) ^ eq * ((mq : ℚ) * (2 : ℚ) ^ eq) < (2 : ℚ) ^ 1024 - (2 : ℚ) ^ 970 := by
  have hE2 : E ≤ 511 := by
    by_contra hcon
    have h3 : (512 : Int) ≤ E := by omega
    have h4 : (2 : ℚ) ^ (512 : Int) ≤ (2 : ℚ) ^ E :=
      zpow_le_zpow_right₀ (by norm_num) h3
    rw [zpow_ofNat] at h4
    have h5 : (0 : ℚ) < 2 ^ 458 := by positivity
    linarith
  have hE3 : (2 : ℚ) ^ E ≤ 2 ^ 511 := by
    have := zpow_le_zpow_right₀ (show (1 : ℚ) ≤ 2 by norm_num) hE2
    rwa [zpow_ofNat] at this
  have hy : (mq : ℚ) * (2 : ℚ) ^ eq < 2 ^ 512 := by
    have h3 := (abs_le.mp herr).2
    have h4 : (2 : ℚ) ^ E / 2 ^ 53 ≤ 2 ^ 458 := by
      rw [div_le_iff₀ (by positivity)]
      have : (2 : ℚ) ^ 458 * 2 ^ 53 = 2 ^ 511 := by norm_num
      rw [this]; exact hE3
    linarith
  have heq3 : eq ≤ 459 := by
    by_contra hcon
    have h3 : (460 : Int) ≤ eq := by omega
    have h4 : (2 : ℚ) ^ (460 : Int) ≤ (2 : ℚ) ^ eq :=
      zpow_le_zpow_right₀ (by norm_num) h3
    rw [zpow_ofNat] at h4
    have h5 : ((2 ^ 52 : Nat) : ℚ) ≤ (mq : ℚ) := by exact_mod_cast hmq1
    have h6 : ((2 ^ 52 : Nat) : ℚ) * (2 : ℚ) ^ 460 ≤ (mq : ℚ) * (2 : ℚ) ^ eq :=
      mul_le_mul h5 h4 (by positivity) (by positivity)
    have h7 : ((2 ^ 52 : Nat) : ℚ) * (2 : ℚ) ^ 460 = 2 ^ 512 := by norm_num
    linarith
  have hv : (2 : ℚ) ^ eq ≤ 2 ^ 459 := by
    have := zpow_le_zpow_right₀ (show (1 : ℚ) ≤ 2 by norm_num) heq3
    rwa [zpow_ofNat] at this
  have hmq3 : (mq : ℚ) ≤ 2 ^ 53 - 1 := by
    have : ((mq : Nat) : ℚ) ≤ ((2 ^ 53 - 1 : Nat) : ℚ) := by
      exact_mod_cast (show mq ≤ 2 ^ 53 - 1 by omega)
    have e1 : ((2 ^ 53 - 1 : Nat) : ℚ) = 2 ^ 53 - 1 := by norm_num
    rwa [e1] at this
  have hy2 : (mq : ℚ) * (2 : ℚ) ^ eq ≤ (2 ^ 53 - 1) * 2 ^ 459 :=
    mul_le_mul hmq3 hv (zpow_pos (by norm_num) _).le (by norm_num)
  have hy0 : (0 : ℚ) ≤ (mq : ℚ) * (2 : ℚ) ^ eq := by positivity
  have hyy := mul_self_le_mul_self hy0 hy2
  have h8 : ((2 : ℚ) ^ 53 - 1) * 2 ^ 459 * ((2 ^ 53 - 1) * 2 ^ 459)
      < (2 : ℚ) ^ 1024 - (2 : ℚ) ^ 970 := by norm_num
  linarith

/-- The square of a number `y` rounded from `ρ = r * u` (when `r * r = M`) or from
`ρ = (r + 1/2) * u` is within the relative error `2^-50` of `M * u²`. -/
theorem square_accuracy (M r u ρ y : ℚ) (hu : 0 < u) (hr : 2 ^ 56 ≤ r) (h1 : r * r ≤ M)
    (h2 : M < (r + 1) * (r + 1))
    (hρ : (ρ = r * u ∧ r * r = M) ∨ ρ = (r + 1 / 2) * u)
    (hy : |y - ρ| ≤ ρ / 2 ^ 53) :
    |y * y - M * (u * u)| ≤ M * (u * u) / 2 ^ 50 := by
  have hrel : |y / u - ρ / u| ≤ ρ / u / 2 ^ 53 := by
    rw [← sub_div, abs_div, abs_of_pos hu]
    have e1 : ρ / u / 2 ^ 53 = ρ / 2 ^ 53 / u := by ring
    rw [e1]
    exact div_le_div_of_nonneg_right hy hu.le
  have hρ' : (ρ / u = r ∧ r * r = M) ∨ ρ / u = r + 1 / 2 := by
    rcases hρ with ⟨h, h'⟩ | h
    · left; exact ⟨by rw [h]; field_simp, h'⟩
    · right; rw [h]; field_simp; ring
  have hsq := sqrt_arith M r (ρ / u) (y / u) hr h1 h2 hρ' hrel
  have e1 : y * y - M * (u * u) = (y / u * (y / u) - M) * (u * u) := by
    field_simp
    ring
  rw [e1, abs_mul, abs_of_pos (mul_pos hu hu)]
  have e2 : M * (u * u) / 2 ^ 50 = M / 2 ^ 50 * (u * u) := by ring
  rw [e2]
  exact mul_le_mul_of_nonneg_right hsq (mul_pos hu hu).le

/-- The function `math.Sqrt` on a positive finite number `x = m * 2^e`: the result is a
positive finite number `y` whose square is within the relative error `2^-50` of `x` and
below the overflow threshold. -/
theorem math.Sqrt_spec (m : Nat) (e : Int) (hm : 0 < m) (hm2 : m < 2 ^ 53)
    (he1 : -1074 ≤ e) (he2 : e ≤ 971) :
    ∃ (mq : Nat) (eq : Int), math.Sqrt (float64.finite false m e) = float64.finite false mq eq
      ∧ 0 < mq
      ∧ |(mq : ℚ) * (2 : ℚ) ^ eq * ((mq : ℚ) * (2 : ℚ) ^ eq) - (m : ℚ) * (2 : ℚ) ^ e|
          ≤ (m : ℚ) * (2 : ℚ) ^ e / 2 ^ 50
      ∧ (mq : ℚ) * (2 : ℚ) ^ eq * ((mq : ℚ) * (2 : ℚ) ^ eq) < (2 : ℚ) ^ 1024 - (2 : ℚ) ^ 970 := by
  have h2 : (2 : ℚ) ≠ 0 := by norm_num
  rw [math.Sqrt_eq m e hm]
  have ht : (((e + 1200).toNat : Nat) : Int) = e + 1200 := Int.toNat_of_nonneg (by omega)
  generalize (e + 1200).toNat = t at ht ⊢
  have hpw1 : 2 ^ 112 ≤ 2 ^ (112 + t % 2) := Nat.pow_le_pow_right (by norm_num) (by omega)
  have hpw2 : 2 ^ (112 + t % 2) ≤ 2 ^ 113 := Nat.pow_le_pow_right (by norm_num) (by omega)
  have hM1 : 2 ^ 112 ≤ m * 2 ^ (112 + t % 2) :=
    le_trans hpw1 (Nat.le_mul_of_pos_left _ hm)
  have hM2 : m * 2 ^ (112 + t % 2) ≤ (2 ^ 53 - 1) * 2 ^ 113 :=
    Nat.mul_le_mul (by omega) hpw2
  obtain ⟨r1, r2⟩ := float64.isqrt_spec (m * 2 ^ (112 + t % 2))
  generalize hMdef : m * 2 ^ (112 + t % 2) = M at hM1 hM2 r1 r2 ⊢
  generalize float64.isqrt M = r at r1 r2 ⊢
  have hr1 : 2 ^ 56 ≤ r := by
    by_contra hcon
    have h3 : r + 1 ≤ 2 ^ 56 := by omega
    have h4 : (r + 1) * (r + 1) ≤ 2 ^ 56 * 2 ^ 56 := Nat.mul_le_mul h3 h3
    have h5 : (2 : Nat) ^ 56 * 2 ^ 56 = 2 ^ 112 := by norm_num
    omega
  have hr2 : r ≤ 2 ^ 83 - 2 ^ 29 - 1 := by
    by_contra hcon
    have h3 : 2 ^ 83 - 2 ^ 29 ≤ r := by omega
    have h4 : (2 ^ 83 - 2 ^ 29) * (2 ^ 83 - 2 ^ 29) ≤ r * r := Nat.mul_le_mul h3 h3
    have h5 : (2 ^ 53 - 1) * 2 ^ 113 < (2 ^ 83 - 2 ^ 29) * (2 ^ 83 - 2 ^ 29) := by norm_num
    omega
  have hk1 : (-593 : Int) ≤ ((t / 2 : Nat) : Int) - 656 := by omega
  have hk2 : ((t / 2 : Nat) : Int) - 656 ≤ 429 := by omega
  have he : e = (((t / 2 : Nat) : Int) - 656) + (((t / 2 : Nat) : Int) - 656)
      + ((112 + t % 2 : Nat) : Int) := by omega
  generalize hkdef : ((t / 2 : Nat) : Int) - 656 = k at hk1 hk2 he ⊢
  have hu : (0 : ℚ) < (2 : ℚ) ^ k := zpow_pos (by norm_num) _
  have hu1 : (2 : ℚ) ^ k ≤ 2 ^ 429 := by
    have := zpow_le_zpow_right₀ (show (1 : ℚ) ≤ 2 by norm_num) hk2
    rwa [zpow_ofNat] at this
  have hu2 : 1 / (2 : ℚ) ^ 593 ≤ (2 : ℚ) ^ k := by
    have := zpow_le_zpow_right₀ (show (1 : ℚ) ≤ 2 by norm_num) hk1
    rwa [zpow_neg, zpow_ofNat, ← one_div] at this
  have hx : (m : ℚ) * (2 : ℚ) ^ e = (M : ℚ) * ((2 : ℚ) ^ k * (2 : ℚ) ^ k) := by
    rw [he, zpow_add₀ h2, zpow_add₀ h2, zpow_natCast, ← hMdef]
    push_cast
    ring
  have hrq : (2 : ℚ) ^ 56 ≤ (r : ℚ) := by exact_mod_cast hr1
  have hrq2 : (r : ℚ) ≤ 2 ^ 83 - 2 ^ 29 - 1 := by
    have : ((r : Nat) : ℚ) ≤ ((2 ^ 83 - 2 ^ 29 - 1 : Nat) : ℚ) := by exact_mod_cast hr2
    have e1 : ((2 ^ 83 - 2 ^ 29 - 1 : Nat) : ℚ) = 2 ^ 83 - 2 ^ 29 - 1 := by norm_num
    rwa [e1] at this
  have r1q : (r : ℚ) * r ≤ M := by exact_mod_cast r1
  have r2q : (M : ℚ) < ((r : ℚ) + 1) * ((r : ℚ) + 1) := by exact_mod_cast r2
  rw [hx]
  have key : ∀ (R : Nat) (K : Int), 0 < R →
      (((R : ℚ) * (2 : ℚ) ^ K = (r : ℚ) * (2 : ℚ) ^ k ∧ (r : ℚ) * r = M)
        ∨ (R : ℚ) * (2 : ℚ) ^ K = ((r : ℚ) + 1 / 2) * (2 : ℚ) ^ k) →
      ∃ (mq : Nat) (eq : Int), float64.roundDyadic false R K = float64.finite false mq eq
        ∧ 0 < mq
        ∧ |(mq : ℚ) * (2 : ℚ) ^ eq * ((mq : ℚ) * (2 : ℚ) ^ eq)
              - (M : ℚ) * ((2 : ℚ) ^ k * (2 : ℚ) ^ k)|
            ≤ (M : ℚ) * ((2 : ℚ) ^ k * (2 : ℚ) ^ k) / 2 ^ 50
        ∧ (mq : ℚ) * (2 : ℚ) ^ eq * ((mq : ℚ) * (2 : ℚ) ^ eq)
            < (2 : ℚ) ^ 1024 - (2 : ℚ) ^ 970 := by
    intro R K hR hρ
    have hρlo : (r : ℚ) * (2 : ℚ) ^ k ≤ (R : ℚ) * (2 : ℚ) ^ K := by
      rcases hρ with ⟨h, _⟩ | h
      · rw [h]
      · rw [h]; nlinarith
    have hρhi : (R : ℚ) * (2 : ℚ) ^ K ≤ ((r : ℚ) + 1 / 2) * (2 : ℚ) ^ k := by
      rcases hρ with ⟨h, _⟩ | h
      · rw [h]; nlinarith
      · rw [h]
    have hρhi2 : (R : ℚ) * (2 : ℚ) ^ K < 2 ^ 512 - 2 ^ 458 := by
      have h3 : ((r : ℚ) + 1 / 2) * (2 : ℚ) ^ k ≤ (2 ^ 83 - 2 ^ 29 - 1 + 1 / 2) * 2 ^ 429 := by
        apply mul_le_mul (by linarith) hu1 hu.le (by norm_num)
      have h4 : ((2 : ℚ) ^ 83 - 2 ^ 29 - 1 + 1 / 2) * 2 ^ 429 < 2 ^ 512 - 2 ^ 458 := by
        norm_num
      linarith
    have hρlo2 : 1 / (2 : ℚ) ^ 1022 ≤ (R : ℚ) * (2 : ℚ) ^ K := by
      have h3 : (2 : ℚ) ^ 56 * (1 / (2 : ℚ) ^ 593) ≤ (r : ℚ) * (2 : ℚ) ^ k :=
        mul_le_mul hrq hu2 (by positivity) (by linarith)
      have h4 : 1 / (2 : ℚ) ^ 1022 ≤ (2 : ℚ) ^ 56 * (1 / (2 : ℚ) ^ 593) := by norm_num
      linarith
    obtain ⟨mq, eq, E, hres, hmq1, hmq2, heq1, heq2, hE, herr⟩ :=
      float64.roundDyadic_normal false R K hR hρlo2
        (lt_trans hρhi2 (by norm_num))
    have hrel : |(mq : ℚ) * (2 : ℚ) ^ eq - (R : ℚ) * (2 : ℚ) ^ K|
        ≤ (R : ℚ) * (2 : ℚ) ^ K / 2 ^ 53 :=
      le_trans herr (div_le_div_of_nonneg_right hE (by positivity))
    exact ⟨mq, eq, hres, by omega,
      square_accuracy (M : ℚ) (r : ℚ) _ _ _ hu hrq r1q r2q hρ hrel,
      square_no_overflow mq eq E _ hmq1 hmq2 hE herr hρhi2⟩
  by_cases hex : r * r = M
  · rw [if_pos hex]
    exact key r k (by omega) (Or.inl ⟨rfl, by exact_mod_cast hex⟩)
  · rw [if_neg hex]
    apply key (2 * r + 1) (k - 1) (by omega)
    right
    rw [zpow_sub_one₀ h2]
    push_cast
    ring

/-- A natural number within less than `1` of another natural number is that number. -/
theorem nat_eq_of_near (a b : Nat) (h : |(a : ℚ) - (b : ℚ)| < 1) : a = b := by
  obtain ⟨h1, h2⟩ := abs_lt.mp h
  have h3 : (b : ℚ) < (a : ℚ) + 1 := by linarith
  have h4 : (a : ℚ) < (b : ℚ) + 1 := by linarith
  have h5 : b < a + 1 := by exact_mod_cast h3
  have h6 : a < b + 1 := by exact_mod_cast h4
  omega

/-- The product `y * y` of a positive finite number with itself, when `y * y` is within the
relative error `2^-50` of a positive multiple `x` of `2^-1074` and below the overflow
threshold: a positive finite number within the relative error `2^-48` of `x`. -/
theorem float64.mul_self_spec (mq : Nat) (eq : Int) (N : Nat) (x : ℚ) (hmq : 0 < mq)
    (hN : 0 < N) (hxN : x * 2 ^ 1074 = N)
    (hacc : |(mq : ℚ) * (2 : ℚ) ^ eq * ((mq : ℚ) * (2 : ℚ) ^ eq) - x| ≤ x / 2 ^ 50)
    (hno : (mq : ℚ) * (2 : ℚ) ^ eq * ((mq : ℚ) * (2 : ℚ) ^ eq) < (2 : ℚ) ^ 1024 - (2 : ℚ) ^ 970) :
    ∃ (mp : Nat) (ep : Int),
      float64.mul (float64.finite false mq eq) (float64.finite false mq eq)
        = float64.finite false mp ep
      ∧ 0 < mp ∧ |(mp : ℚ) * (2 : ℚ) ^ ep - x| ≤ x / 2 ^ 48 := by
  have h2 : (2 : ℚ) ≠ 0 := by norm_num
  have hNq : (0 : ℚ) < (N : ℚ) := by exact_mod_cast hN
  have hx : x = (N : ℚ) / 2 ^ 1074 := by
    rw [← hxN]; field_simp
  have hx0 : 0 < x := by rw [hx]; positivity
  obtain ⟨ha1, ha2⟩ := abs_le.mp hacc
  have hmul : float64.mul (float64.finite false mq eq) (float64.finite false mq eq)
      = float64.roundDyadic false (mq * mq) (eq + eq) := by
    simp [float64.mul]
  obtain ⟨n, d, hn, hd, hrd, hval⟩ :=
    float64.roundDyadic_eq false (mq * mq) (eq + eq) (Nat.mul_pos hmq hmq)
  have hval2 : (n : ℚ) / d = (mq : ℚ) * (2 : ℚ) ^ eq * ((mq : ℚ) * (2 : ℚ) ^ eq) := by
    rw [hval, zpow_add₀ h2]; push_cast; ring
  rw [hmul, hrd]
  rw [← hval2] at ha1 ha2 hno
  have hpow : (2 : ℚ) ^ (-1074 : Int) = 1 / 2 ^ 1074 := by
    rw [zpow_neg, zpow_ofNat, one_div]
  by_cases hcase : 1 / (2 : ℚ) ^ 1022 ≤ (n : ℚ) / d
  · obtain ⟨mp, ep, E, hres, hm1, _, _, _, hE, herr⟩ :=
      float64.round_normal false n d hn hd hcase hno
    have h3 : |(mp : ℚ) * (2 : ℚ) ^ ep - (n : ℚ) / d| ≤ (n : ℚ) / d / 2 ^ 53 :=
      le_trans herr (div_le_div_of_nonneg_right hE (by positivity))
    obtain ⟨h3a, h3b⟩ := abs_le.mp h3
    refine ⟨mp, ep, hres, by omega, ?_⟩
    rw [abs_le]
    constructor <;> linarith
  · have hcase2 : (n : ℚ) / d < 1 / (2 : ℚ) ^ 1022 := lt_of_not_le hcase
    obtain ⟨mp, hres, _, herr⟩ := float64.round_subnormal false n d hn hd hcase2
    obtain ⟨h5a, h5b⟩ := abs_le.mp herr
    have h6a : (N : ℚ) - (N : ℚ) / 2 ^ 50 ≤ (n : ℚ) / d * 2 ^ 1074 := by
      have := mul_le_mul_of_nonneg_right ha1 (show (0 : ℚ) ≤ 2 ^ 1074 by positivity)
      rw [hx] at this
      have e1 : (-((N : ℚ) / 2 ^ 1074 / 2 ^ 50)) * 2 ^ 1074 = -((N : ℚ) / 2 ^ 50) := by
        field_simp
        ring
      have e2 : ((n : ℚ) / d - (N : ℚ) / 2 ^ 1074) * 2 ^ 1074
          = (n : ℚ) / d * 2 ^ 1074 - N := by
        field_simp
        ring
      rw [e1, e2] at this
      linarith
    have h6b : (n : ℚ) / d * 2 ^ 1074 ≤ (N : ℚ) + (N : ℚ) / 2 ^ 50 := by
      have := mul_le_mul_of_nonneg_right ha2 (show (0 : ℚ) ≤ 2 ^ 1074 by positivity)
      rw [hx] at this
      have e1 : ((N : ℚ) / 2 ^ 1074 / 2 ^ 50) * 2 ^ 1074 = (N : ℚ) / 2 ^ 50 := by
        field_simp
        ring
      have e2 : ((n : ℚ) / d - (N : ℚ) / 2 ^ 1074) * 2 ^ 1074
          = (n : ℚ) / d * 2 ^ 1074 - N := by
        field_simp
        ring
      rw [e1, e2] at this
      linarith
    by_cases hsmall : N < 2 ^ 48
    · have hNs : (N : ℚ) < 2 ^ 48 := by exact_mod_cast hsmall
      have hnear : |(mp : ℚ) - (N : ℚ)| < 1 := by
        rw [abs_lt]
        constructor <;> linarith
      have hmpN : mp = N := nat_eq_of_near mp N hnear
      refine ⟨mp, -1074, hres, by omega, ?_⟩
      rw [hmpN, hpow, hx]
      have e3 : (N : ℚ) * (1 / 2 ^ 1074) - (N : ℚ) / 2 ^ 1074 = 0 := by ring
      rw [e3, abs_zero]
      positivity
    · have hNl : (2 : ℚ) ^ 48 ≤ (N : ℚ) := by exact_mod_cast (Nat.le_of_not_lt hsmall)
      have hmp0 : 0 < mp := by
        by_contra hcon
        have hz : mp = 0 := by omega
        rw [hz] at h5a
        push_cast at h5a
        linarith
      refine ⟨mp, -1074, hres, hmp0, ?_⟩
      rw [hpow, hx]
      have e4 : (mp : ℚ) * (1 / 2 ^ 1074) - (N : ℚ) / 2 ^ 1074
          = ((mp : ℚ) - N) / 2 ^ 1074 := by ring
      have e5 : (N : ℚ) / 2 ^ 1074 / 2 ^ 48 = (N : ℚ) / 2 ^ 48 / 2 ^ 1074 := by ring
      rw [e4, e5, abs_div, abs_of_pos (show (0 : ℚ) < 2 ^ 1074 by positivity)]
      apply div_le_div_of_nonneg_right _ (by positivity)
      rw [abs_le]
      constructor <;> linarith


/-- The quotient of a positive finite number `x` by a positive finite number within the
relative error `2^-48` of `x` is a number within `1e-9` of `1`. -/
theorem float64.div_near_spec (m mp : Nat) (e ep : Int) (hm : 0 < m) (hmp : 0 < mp)
    (hclose : |(mp : ℚ) * (2 : ℚ) ^ ep - (m : ℚ) * (2 : ℚ) ^ e|
      ≤ (m : ℚ) * (2 : ℚ) ^ e / 2 ^ 48) :
    float64.within (float64.div (float64.finite false m e) (float64.finite false mp ep))
      1 (1 / 10 ^ 9) := by
  have h2 : (2 : ℚ) ≠ 0 := by norm_num
  have hmq : (0 : ℚ) < (m : ℚ) := by exact_mod_cast hm
  have hmpq : (0 : ℚ) < (mp : ℚ) := by exact_mod_cast hmp
  have hx0 : (0 : ℚ) < (m : ℚ) * (2 : ℚ) ^ e := mul_pos hmq (zpow_pos (by norm_num) _)
  have hz0 : (0 : ℚ) < (mp : ℚ) * (2 : ℚ) ^ ep := mul_pos hmpq (zpow_pos (by norm_num) _)
  obtain ⟨hc1, hc2⟩ := abs_le.mp hclose
  -- the fraction that is rounded
  have hfrac : ∃ n d : Nat, 0 < n ∧ 0 < d
      ∧ float64.div (float64.finite false m e) (float64.finite false mp ep)
        = float64.round false n d
      ∧ (n : ℚ) / d = (m : ℚ) * (2 : ℚ) ^ e / ((mp : ℚ) * (2 : ℚ) ^ ep) := by
    have hmp0 : mp ≠ 0 := by omega
    by_cases hee : 0 ≤ e - ep
    · obtain ⟨c, hc⟩ := Int.eq_ofNat_of_zero_le hee
      refine ⟨m * 2 ^ c, mp, by positivity, hmp, ?_, ?_⟩
      · simp [float64.div, hmp0, hee, hc]
      · have he : e = ep + (c : Int) := by omega
        rw [he, zpow_add₀ h2, zpow_natCast]
        push_cast
        field_simp
        ring
    · obtain ⟨c, hc⟩ := Int.eq_ofNat_of_zero_le (show (0 : Int) ≤ ep - e by omega)
      refine ⟨m, mp * 2 ^ c, hm, by positivity, ?_, ?_⟩
      · simp [float64.div, hmp0, hee, hc]
      · have he : ep = e + (c : Int) := by omega
        rw [he, zpow_add₀ h2, zpow_natCast]
        push_cast
        field_simp
        ring
  obtain ⟨n, d, hn, hd, hdiv, hval⟩ := hfrac
  have hg1 : (m : ℚ) * (2 : ℚ) ^ e / ((mp : ℚ) * (2 : ℚ) ^ ep) ≤ 1 + 1 / 2 ^ 47 := by
    rw [div_le_iff₀ hz0]
    linarith
  have hg2 : 1 - 1 / 2 ^ 47 ≤ (m : ℚ) * (2 : ℚ) ^ e / ((mp : ℚ) * (2 : ℚ) ^ ep) := by
    rw [le_div_iff₀ hz0]
    linarith
  rw [← hval] at hg1 hg2
  obtain ⟨mv, ev, E, hres, _, _, _, _, hE, herr⟩ :=
    float64.round_normal false n d hn hd
      (le_trans (by norm_num) hg2) (lt_of_le_of_lt hg1 (by norm_num))
  have h3 : |(mv : ℚ) * (2 : ℚ) ^ ev - (n : ℚ) / d| ≤ (n : ℚ) / d / 2 ^ 53 :=
    le_trans herr (div_le_div_of_nonneg_right hE (by positivity))
  obtain ⟨h3a, h3b⟩ := abs_le.mp h3
  rw [hdiv, hres]
  simp only [float64.within, float64.toRat_finite_pos]
  rw [abs_le]
  constructor
  · have : (1 : ℚ) / 10 ^ 9 = 1 / 1000000000 := by norm_num
    linarith
  · have : (1 : ℚ) / 10 ^ 9 = 1 / 1000000000 := by norm_num
    linarith

/-- For a positive binary64 number `s` the quotient `s / (Sqrt s * Sqrt s)` is within `1e-9`
of `1`. -/
theorem float64.self_quotient_near_one (m : Nat) (e : Int) (hm : 0 < m) (hm2 : m < 2 ^ 53)
    (he1 : -1074 ≤ e) (he2 : e ≤ 971) :
    float64.within
      (float64.div (float64.finite false m e)
        (float64.mul (math.Sqrt (float64.finite false m e))
          (math.Sqrt (float64.finite false m e)))) 1 (1 / 10 ^ 9) := by
  have h2 : (2 : ℚ) ≠ 0 := by norm_num
  obtain ⟨mq, eq, hq, hmq, hacc, hno⟩ := math.Sqrt_spec m e hm hm2 he1 he2
  obtain ⟨c, hc⟩ := Int.eq_ofNat_of_zero_le (show (0 : Int) ≤ e + 1074 by omega)
  have hxN : (m : ℚ) * (2 : ℚ) ^ e * 2 ^ 1074 = ((m * 2 ^ c : Nat) : ℚ) := by
    have he : e = (c : Int) + (-1074 : Int) := by omega
    rw [he, zpow_add₀ h2, zpow_natCast, zpow_neg, zpow_ofNat]
    push_cast
    field_simp
  obtain ⟨mp, ep, hp, hmp, hclose⟩ :=
    float64.mul_self_spec mq eq (m * 2 ^ c) _ hmq (by positivity) hxN hacc hno
  rw [hq, hp]
  exact float64.div_near_spec m mp e ep hm hmp hclose

/-- Every finite result of a rounding is a binary64 number: its significand is below `2^53`
and its exponent lies between `-1074` and `971`. -/
theorem float64.round_valid (neg : Bool) (n d : Nat) (hd : 0 < d) (s : Bool) (m : Nat)
    (e : Int) (h : float64.round neg n d = float64.finite s m e) :
    m < 2 ^ 53 ∧ -1074 ≤ e ∧ e ≤ 971 := by
  by_cases hn0 : n = 0
  · simp [float64.round, hn0] at h
    obtain ⟨-, hm, he⟩ := h
    subst hm; subst he
    exact ⟨by norm_num, by norm_num, by norm_num⟩
  have hn : 0 < n := Nat.pos_of_ne_zero hn0
  have hdq : (0 : ℚ) < d := by exact_mod_cast hd
  have h2 : (2 : ℚ) ≠ 0 := by norm_num
  obtain ⟨-, l2⟩ := float64.ilog2_spec n d hn hd
  have hx2 : (n : ℚ) / d < (2 : ℚ) ^ (float64.ilog2 n d + 1) := by
    rw [div_lt_iff₀ hdq]; exact l2
  obtain ⟨m0, hm0, hres⟩ := float64.round_cases neg n d hn hd
  have hq1 : float64.ilog2 n d + 1 ≤ max (float64.ilog2 n d - 52) (-1074) + 53 := by omega
  have hq2 : -1074 ≤ max (float64.ilog2 n d - 52) (-1074) := by omega
  generalize max (float64.ilog2 n d - 52) (-1074) = q at hm0 hres hq1 hq2
  have hT : (0 : ℚ) < (2 : ℚ) ^ q := zpow_pos (by norm_num) _
  have hpow : (2 : ℚ) ^ (float64.ilog2 n d + 1) ≤ (2 : ℚ) ^ q * 2 ^ 53 := by
    have := zpow_le_zpow_right₀ (show (1 : ℚ) ≤ 2 by norm_num) hq1
    have e1 : (2 : ℚ) ^ (q + 53) = (2 : ℚ) ^ q * 2 ^ 53 := by
      rw [zpow_add₀ h2 q 53]
      congr 1
      exact zpow_ofNat 2 53
    rw [e1] at this
    exact this
  have hv : (n : ℚ) / d / (2 : ℚ) ^ q < ((2 ^ 53 : Nat) : ℚ) + 1 / 2 := by
    rw [div_lt_iff₀ hT]; push_cast; nlinarith
  have hm2 : m0 ≤ 2 ^ 53 := nat_le_of_near m0 (2 ^ 53) _ hm0 hv
  rw [hres] at h
  by_cases hm53 : m0 = 2 ^ 53
  · rw [if_pos hm53] at h
    by_cases hq : 971 < q + 1
    · rw [if_pos hq] at h; cases h
    · rw [if_neg hq] at h
      injection h with _ hm he
      subst hm; subst he
      exact ⟨by norm_num, by omega, by omega⟩
  · rw [if_neg hm53] at h
    by_cases hq : 971 < q
    · rw [if_pos hq] at h; cases h
    · rw [if_neg hq] at h
      injection h with _ hm he
      subst hm; subst he
      exact ⟨by omega, by omega, by omega⟩

/-- Every finite sum of two `float64` that is not a zero is a binary64 number. -/
theorem float64.add_valid (x y : float64) (s : Bool) (m : Nat) (e : Int)
    (h : float64.add x y = float64.finite s m e) (hm : 0 < m) :
    m < 2 ^ 53 ∧ -1074 ≤ e ∧ e ≤ 971 := by
  cases x with
  | nan => simp [float64.add] at h
  | inf sx =>
    cases y with
    | nan => simp [float64.add] at h
    | inf sy =>
      simp only [float64.add] at h
      split at h <;> cases h
    | finite sy my ey => simp [float64.add] at h
  | finite sx mx ex =>
    cases y with
    | nan => simp [float64.add] at h
    | inf sy => simp [float64.add] at h
    | finite sy my ey =>
      simp only [float64.add] at h
      generalize (if sx then (-1 : Int) else 1) * ((mx * 2 ^ (ex - min ex ey).toNat : Nat) : Int)
        + (if sy then (-1 : Int) else 1) * ((my * 2 ^ (ey - min ex ey).toNat : Nat) : Int)
        = z at h
      by_cases hz : z = 0
      · rw [if_pos hz] at h
        injection h with _ h0 _
        omega
      · rw [if_neg hz] at h
        obtain ⟨n, d, -, hd, hr, -⟩ := float64.roundDyadic_eq (decide (z < 0)) z.natAbs
          (min ex ey) (Int.natAbs_pos.mpr hz)
        rw [hr] at h
        exact float64.round_valid _ n d hd s m e h

/-! ## The cosine of a vector with itself -/

/-- On a non-empty vector the sum of squares that the loop leaves is the result of an
addition, the one of the last iteration. -/
theorem selfLoop_last_step {F : Type} [Zero F] [Add F] [Mul F] (a : List F) (hne : a ≠ []) :
    ∃ s p : F,
      (List.range a.length).foldl (fun sum i => sum + a.getD i 0 * a.getD i 0) 0 = s + p := by
  obtain ⟨n, hn⟩ : ∃ n, a.length = n + 1 :=
    Nat.exists_eq_succ_of_ne_zero (by simpa using hne)
  rw [hn, List.range_succ, List.foldl_append]
  exact ⟨_, _, rfl⟩

/-- C5, as amended: for every non-empty vector `a` of `float64` whose sum of squares, as the
loop computes it, is a positive finite number (not `0`, not `+Inf`, not a NaN),
`Cosine(a, a)` returns the `nil` error and the value `s / (Sqrt s * Sqrt s)`, and that value
is a number within `1e-9` of `1.0`. -/
theorem C5_cosine_self_near_one (a : List float64) (hne : a ≠ [])
    (hs : float64.posFinite (DotProduct a a).1) :
    Cosine math.Sqrt a a
        = ((DotProduct a a).1
            / (math.Sqrt (DotProduct a a).1 * math.Sqrt (DotProduct a a).1), none)
      ∧ float64.within (Cosine math.Sqrt a a).1 1 (1 / 10 ^ 9) := by
  have hval : Cosine math.Sqrt a a
      = ((DotProduct a a).1
          / (math.Sqrt (DotProduct a a).1 * math.Sqrt (DotProduct a a).1), none) := by
    rw [Cosine_ok math.Sqrt a a hne rfl, DotProduct_ok a a hne rfl]
  refine ⟨hval, ?_⟩
  rw [hval]
  obtain ⟨m, e, hme, hm⟩ := hs
  obtain ⟨s, p, hsp⟩ := selfLoop_last_step a hne
  have hadd : float64.add s p = float64.finite false m e := by
    rw [DotProduct_ok a a hne rfl] at hme
    rw [← hme]
    exact hsp.symm
  obtain ⟨hm2, he1, he2⟩ := float64.add_valid s p false m e hadd hm
  rw [hme]
  exact float64.self_quotient_near_one m e hm hm2 he1 he2

/-! ## Lemmas on the extraction loop -/

section ExtractorLemmas

variable {J F : Type}

/-- The loop stops at once when its condition `i < arrCount && err == nil` is false. -/
theorem AsFloat64Array.loop_stop (h : JSONHost J F) (binJson : J) (arrCount : Nat)
    (st : ExtractVars F) (hstop : ¬ (st.i < arrCount ∧ st.err = none)) :
    AsFloat64Array.loop h binJson arrCount st = st := by
  rw [AsFloat64Array.loop, if_neg hstop]

/-- One iteration of the loop, taken when its condition holds. -/
theorem AsFloat64Array.loop_step (h : JSONHost J F) (binJson : J) (arrCount : Nat)
    (st : ExtractVars F) (hi : st.i < arrCount) (herr : st.err = none) :
    AsFloat64Array.loop h binJson arrCount st
      = AsFloat64Array.loop h binJson arrCount
          { values := st.values.set st.i (h.ConvertJSONToFloat (h.ArrayGetElem binJson st.i)).1
            err := (h.ConvertJSONToFloat (h.ArrayGetElem binJson st.i)).2
            i := st.i + 1
            converted := st.converted ++ [st.i] } := by
  rw [AsFloat64Array.loop, if_pos ⟨hi, herr⟩]

/-- The loop when every remaining element coerces: it runs to `arrCount`, ends without an
error, converts the indices `i, …, arrCount-1` in order, keeps the entries below `i` and
stores at every later index the coercion of that element. -/
theorem AsFloat64Array.loop_all_ok (h : JSONHost J F) (binJson : J) (arrCount : Nat) :
    ∀ (d : Nat) (st : ExtractVars F), st.i + d = arrCount → st.err = none →
      (∀ j, st.i ≤ j → j < arrCount →
        (h.ConvertJSONToFloat (h.ArrayGetElem binJson j)).2 = none) →
      (AsFloat64Array.loop h binJson arrCount st).err = none
        ∧ (AsFloat64Array.loop h binJson arrCount st).i = arrCount
        ∧ (AsFloat64Array.loop h binJson arrCount st).values.length = st.values.length
        ∧ (AsFloat64Array.loop h binJson arrCount st).converted
            = st.converted ++ List.range' st.i d
        ∧ (∀ j, j < st.i →
            (AsFloat64Array.loop h binJson arrCount st).values[j]? = st.values[j]?)
        ∧ (∀ j, st.i ≤ j → j < arrCount → j < st.values.length →
            (AsFloat64Array.loop h binJson arrCount st).values[j]?
              = some (h.ConvertJSONToFloat (h.ArrayGetElem binJson j)).1) := by
  intro d
  induction d with
  | zero =>
    intro st hd herr _
    have hstop : ¬ (st.i < arrCount ∧ st.err = none) := by
      intro hc
      omega
    rw [AsFloat64Array.loop_stop h binJson arrCount st hstop]
    refine ⟨herr, by omega, rfl, by simp, fun _ _ => rfl, ?_⟩
    intro j h1 h2 _
    omega
  | succ d ih =>
    intro st hd herr hok
    have hi : st.i < arrCount := by omega
    rw [AsFloat64Array.loop_step h binJson arrCount st hi herr]
    obtain ⟨e1, e2, e3, e4, e5, e6⟩ := ih
      { values := st.values.set st.i (h.ConvertJSONToFloat (h.ArrayGetElem binJson st.i)).1
        err := (h.ConvertJSONToFloat (h.ArrayGetElem binJson st.i)).2
        i := st.i + 1
        converted := st.converted ++ [st.i] }
      (by simp only; omega) (hok st.i (Nat.le_refl _) hi)
      (fun j h1 h2 => hok j (by simp only at h1; omega) h2)
    refine ⟨e1, e2, ?_, ?_, ?_, ?_⟩
    · rw [e3]
      simp
    · rw [e4]
      simp [List.range'_succ]
    · intro j hj
      rw [e5 j (by simp only; omega)]
      simp only
      rw [List.getElem?_set_ne (by omega)]
    · intro j h1 h2 h3
      by_cases hj : j = st.i
      · subst hj
        rw [e5 st.i (by simp only; omega)]
        simp only
        rw [List.getElem?_set_self h3]
      · exact e6 j (by simp only; omega) h2 (by simpa using h3)

/-- The loop when the element at index `k` is the first that does not coerce: it stops
right after `k` with that element's error, having converted the indices `i, …, k` in order
and no later one; the entries below `i` and above `k` are kept. -/
theorem AsFloat64Array.loop_first_failure (h : JSONHost J F) (binJson : J)
    (arrCount k : Nat) (e : GoError) (hk : k < arrCount)
    (hfail : (h.ConvertJSONToFloat (h.ArrayGetElem binJson k)).2 = some e) :
    ∀ (d : Nat) (st : ExtractVars F), st.i + d = k → st.err = none →
      (∀ j, st.i ≤ j → j < k →
        (h.ConvertJSONToFloat (h.ArrayGetElem binJson j)).2 = none) →
      (AsFloat64Array.loop h binJson arrCount st).err = some e
        ∧ (AsFloat64Array.loop h binJson arrCount st).i = k + 1
        ∧ (AsFloat64Array.loop h binJson arrCount st).values.length = st.values.length
        ∧ (AsFloat64Array.loop h binJson arrCount st).converted
            = st.converted ++ List.range' st.i (d + 1)
        ∧ (∀ j, j < st.i ∨ k < j →
            (AsFloat64Array.loop h binJson arrCount st).values[j]? = st.values[j]?)
        ∧ (∀ j, st.i ≤ j → j ≤ k → j < st.values.length →
            (AsFloat64Array.loop h binJson arrCount st).values[j]?
              = some (h.ConvertJSONToFloat (h.ArrayGetElem binJson j)).1) := by
  intro d
  induction d with
  | zero =>
    intro st hd herr _
    have hik : st.i = k := by omega
    have hi : st.i < arrCount := by omega
    rw [AsFloat64Array.loop_step h binJson arrCount st hi herr]
    rw [AsFloat64Array.loop_stop h binJson arrCount _ (by simp [hik, hfail])]
    refine ⟨by simp only [hik, hfail], by simp only [hik], by simp, by simp [List.range'_succ],
      ?_, ?_⟩
    · intro j hj
      simp only
      rw [List.getElem?_set_ne (by omega)]
    · intro j h1 h2 h3
      have hj : j = st.i := by omega
      subst hj
      simp only
      rw [List.getElem?_set_self h3]
  | succ d ih =>
    intro st hd herr hok
    have hi : st.i < arrCount := by omega
    rw [AsFloat64Array.loop_step h binJson arrCount st hi herr]
    obtain ⟨e1, e2, e3, e4, e5, e6⟩ := ih
      { values := st.values.set st.i (h.ConvertJSONToFloat (h.ArrayGetElem binJson st.i)).1
        err := (h.ConvertJSONToFloat (h.ArrayGetElem binJson st.i)).2
        i := st.i + 1
        converted := st.converted ++ [st.i] }
      (by simp only; omega) (hok st.i (Nat.le_refl _) (by omega))
      (fun j h1 h2 => hok j (by simp only at h1; omega) h2)
    refine ⟨e1, e2, ?_, ?_, ?_, ?_⟩
    · rw [e3]
      simp
    · rw [e4]
      simp [List.range'_succ]
    · intro j hj
      rw [e5 j (by simp only; omega)]
      simp only
      rw [List.getElem?_set_ne (by omega)]
    · intro j h1 h2 h3
      by_cases hj : j = st.i
      · subst hj
        rw [e5 st.i (by simp only; omega)]
        simp only
        rw [List.getElem?_set_self h3]
      · exact e6 j (by simp only; omega) h2 (by simpa using h3)

end ExtractorLemmas

/-! ## The array extractor -/

section ExtractorClaims

variable {σ R J F : Type} [Zero F]

/-- C7: on a JSON value whose type code is not the array code, `AsFloat64Array` returns the
`nil` vector together with the error "Invalid JSON Array: an array of numbers were expected",
and hands no element to the coercion. -/
theorem C7_not_an_array (h : JSONHost J F) (binJson : J)
    (hty : h.TypeCode binJson ≠ h.JSONTypeCodeArray) :
    AsFloat64Array h binJson
        = ([], some (errors.New "Invalid JSON Array: an array of numbers were expected"))
      ∧ AsFloat64Array.converted h binJson = [] := by
  simp [AsFloat64Array, AsFloat64Array.converted, AsFloat64Array.run, hty]

/-- The variables of `AsFloat64Array` at its `return`, on a JSON array. -/
theorem AsFloat64Array.run_array (h : JSONHost J F) (binJson : J)
    (hty : h.TypeCode binJson = h.JSONTypeCodeArray) :
    AsFloat64Array.run h binJson
      = AsFloat64Array.loop h binJson (h.GetElemCount binJson)
          { values := List.replicate (h.GetElemCount binJson) 0
            err := none, i := 0, converted := [] } := by
  simp [AsFloat64Array.run, hty]

/-- C8: on a JSON array all of whose elements coerce, `AsFloat64Array` returns no error and
the vector of the coercions of the elements in array order: its length is the element count
and its `i`-th entry is the coercion of the `i`-th element; the empty array gives the empty
vector. -/
theorem C8_array_of_numbers (h : JSONHost J F) (binJson : J)
    (hty : h.TypeCode binJson = h.JSONTypeCodeArray)
    (hok : ∀ i, i < h.GetElemCount binJson →
      (h.ConvertJSONToFloat (h.ArrayGetElem binJson i)).2 = none) :
    AsFloat64Array h binJson
        = ((List.range (h.GetElemCount binJson)).map
            (fun i => (h.ConvertJSONToFloat (h.ArrayGetElem binJson i)).1), none)
      ∧ (AsFloat64Array h binJson).1.length = h.GetElemCount binJson
      ∧ (∀ i, i < h.GetElemCount binJson →
          (AsFloat64Array h binJson).1[i]?
            = some (h.ConvertJSONToFloat (h.ArrayGetElem binJson i)).1)
      ∧ (h.GetElemCount binJson = 0 → AsFloat64Array h binJson = ([], none)) := by
  obtain ⟨e1, _, e3, _, _, e6⟩ := AsFloat64Array.loop_all_ok h binJson (h.GetElemCount binJson)
    (h.GetElemCount binJson)
    { values := List.replicate (h.GetElemCount binJson) 0, err := none, i := 0, converted := [] }
    (by simp) rfl (fun j _ hj => hok j hj)
  rw [← AsFloat64Array.run_array h binJson hty] at e1 e3 e6
  simp only [List.length_replicate] at e3 e6
  have hidx : ∀ i, i < h.GetElemCount binJson →
      (AsFloat64Array.run h binJson).values[i]?
        = some (h.ConvertJSONToFloat (h.ArrayGetElem binJson i)).1 :=
    fun i hi => e6 i (Nat.zero_le _) hi hi
  have hvalues : (AsFloat64Array.run h binJson).values
      = (List.range (h.GetElemCount binJson)).map
          (fun i => (h.ConvertJSONToFloat (h.ArrayGetElem binJson i)).1) := by
    apply List.ext_getElem?
    intro i
    by_cases hi : i < h.GetElemCount binJson
    · rw [hidx i hi, List.getElem?_map, List.getElem?_range hi]
      rfl
    · rw [List.getElem?_eq_none (by omega), List.getElem?_eq_none (by simp; omega)]
  have hresult : AsFloat64Array h binJson
      = ((List.range (h.GetElemCount binJson)).map
          (fun i => (h.ConvertJSONToFloat (h.ArrayGetElem binJson i)).1), none) := by
    unfold AsFloat64Array
    rw [hvalues, e1]
  refine ⟨hresult, e3, hidx, ?_⟩
  intro h0
  rw [hresult, h0]
  rfl

/-- The extraction of an expression that evaluates, non-null and without error, to a JSON
array whose element at index `k` is the first that does not coerce. -/
theorem ExtractFloat64Array_first_failure (h : JSONHost J F) (expr : Expression σ R J)
    (row : R) (w w1 : σ) (binJson : J) (k : Nat) (e : GoError)
    (heval : expr.EvalJSON row w = ((binJson, false, none), w1))
    (hty : h.TypeCode binJson = h.JSONTypeCodeArray)
    (hk : k < h.GetElemCount binJson)
    (hbefore : ∀ j, j < k → (h.ConvertJSONToFloat (h.ArrayGetElem binJson j)).2 = none)
    (hfail : (h.ConvertJSONToFloat (h.ArrayGetElem binJson k)).2 = some e) :
    ExtractFloat64Array h expr row w = ({ values := [], isNull := false, err := some e }, w1)
      ∧ AsFloat64Array.converted h binJson = List.range (k + 1) := by
  obtain ⟨e1, _, _, e4, _, _⟩ := AsFloat64Array.loop_first_failure h binJson
    (h.GetElemCount binJson) k e hk hfail k
    { values := List.replicate (h.GetElemCount binJson) 0, err := none, i := 0, converted := [] }
    (by simp) rfl (fun j _ hj => hbefore j hj)
  rw [← AsFloat64Array.run_array h binJson hty] at e1 e4
  constructor
  · simp [ExtractFloat64Array, heval, AsFloat64Array, e1]
  · unfold AsFloat64Array.converted
    rw [e4, List.range_eq_range']
    simp

/-- C9: when an expression evaluates, non-null and without error, to a JSON array with an
element that does not coerce, `ExtractFloat64Array` returns the `nil` vector, `isNull = false`
and the coercion error of the first such element `k` in array order; the elements handed to
the coercion are exactly those at the indices `0, …, k`, none after `k`. -/
theorem C9_first_failing_element (h : JSONHost J F) (expr : Expression σ R J)
    (row : R) (w w1 : σ) (binJson : J)
    (heval : expr.EvalJSON row w = ((binJson, false, none), w1))
    (hty : h.TypeCode binJson = h.JSONTypeCodeArray)
    (hbad : ∃ i, i < h.GetElemCount binJson
      ∧ (h.ConvertJSONToFloat (h.ArrayGetElem binJson i)).2 ≠ none) :
    ∃ (k : Nat) (e : GoError),
      k < h.GetElemCount binJson
        ∧ (∀ j, j < k → (h.ConvertJSONToFloat (h.ArrayGetElem binJson j)).2 = none)
        ∧ (h.ConvertJSONToFloat (h.ArrayGetElem binJson k)).2 = some e
        ∧ ExtractFloat64Array h expr row w
            = ({ values := [], isNull := false, err := some e }, w1)
        ∧ AsFloat64Array.converted h binJson = List.range (k + 1)
        ∧ (∀ j, k < j → j ∉ AsFloat64Array.converted h binJson) := by
  classical
  have hmin := Nat.find_spec hbad
  have hlt := fun j (hj : j < Nat.find hbad) => Nat.find_min hbad hj
  obtain ⟨e, he⟩ := Option.ne_none_iff_exists'.mp hmin.2
  have hbefore : ∀ j, j < Nat.find hbad →
      (h.ConvertJSONToFloat (h.ArrayGetElem binJson j)).2 = none := by
    intro j hj
    by_contra hne
    exact hlt j hj ⟨by omega, hne⟩
  obtain ⟨r1, r2⟩ := ExtractFloat64Array_first_failure h expr row w w1 binJson
    (Nat.find hbad) e heval hty hmin.1 hbefore he
  refine ⟨Nat.find hbad, e, hmin.1, hbefore, he, r1, r2, ?_⟩
  intro j hj
  rw [r2, List.mem_range]
  omega

/-- The extraction of an expression whose evaluation returns the null flag or an error:
the same flag and error, the `nil` vector, and the host state left by that one evaluation. -/
theorem ExtractFloat64Array_null_or_error (h : JSONHost J F) (expr : Expression σ R J)
    (row : R) (w w1 : σ) (binJson : J) (isNull : Bool) (err : Option GoError)
    (heval : expr.EvalJSON row w = ((binJson, isNull, err), w1))
    (hstop : isNull = true ∨ err ≠ none) :
    ExtractFloat64Array h expr row w = ({ values := [], isNull := isNull, err := err }, w1) := by
  have hcond : (isNull || err.isSome) = true := by
    rcases hstop with h1 | h1
    · simp [h1]
    · cases err with
      | none => exact absurd rfl h1
      | some e => simp
  simp [ExtractFloat64Array, heval, hcond]

end ExtractorClaims

/-! ## The scalar function adapters -/

section AdapterClaims

variable {σ R J F : Type} [Zero F] [Add F] [Mul F] [Div F]

/-- C10: for both adapters and every second argument, if argument 1 evaluates to null
without error the result is `(0, null, nil)`, and if the evaluation of argument 1 returns an
error the result carries that same error (with value `0` and the null flag of that
evaluation); in both cases the host state after `evalReal` is the one left by the evaluation
of argument 1 alone, so argument 2 is not evaluated. -/
theorem C10_first_argument_short_circuit (h : JSONHost J F) (Sqrt : F → F)
    (b : baseBuiltinFunc σ R J) (row : R) (w w1 : σ) (binJson : J) (isNull : Bool)
    (err : Option GoError)
    (heval : (b.args 0).EvalJSON row w = ((binJson, isNull, err), w1)) :
    ((isNull = true ∧ err = none) →
        builtinXcosinesimSig.evalReal h Sqrt b row w
            = ({ val := 0, isNull := true, err := none }, w1)
          ∧ builtinXdotproductSig.evalReal h b row w
            = ({ val := 0, isNull := true, err := none }, w1))
      ∧ (∀ e : GoError, err = some e →
        builtinXcosinesimSig.evalReal h Sqrt b row w
            = ({ val := 0, isNull := isNull, err := some e }, w1)
          ∧ builtinXdotproductSig.evalReal h b row w
            = ({ val := 0, isNull := isNull, err := some e }, w1)) := by
  constructor
  · rintro ⟨h1, h2⟩
    subst h1 h2
    have hx := ExtractFloat64Array_null_or_error h (b.args 0) row w w1 binJson true none heval
      (Or.inl rfl)
    simp [builtinXcosinesimSig.evalReal, builtinXdotproductSig.evalReal, hx]
  · intro e he
    subst he
    have hx := ExtractFloat64Array_null_or_error h (b.args 0) row w w1 binJson isNull (some e)
      heval (Or.inr (by simp))
    simp [builtinXcosinesimSig.evalReal, builtinXdotproductSig.evalReal, hx]

end AdapterClaims

/-! ## The adapters after the first argument -/

section AdapterLemmas

variable {σ R J F : Type} [Zero F]

/-- The extraction of an expression that evaluates, non-null and without error, to a JSON
value on which `AsFloat64Array` succeeds: that vector, not null, no error. -/
theorem ExtractFloat64Array_ok (h : JSONHost J F) (expr : Expression σ R J)
    (row : R) (w w1 : σ) (binJson : J) (v : List F)
    (heval : expr.EvalJSON row w = ((binJson, false, none), w1))
    (hext : AsFloat64Array h binJson = (v, none)) :
    ExtractFloat64Array h expr row w = ({ values := v, isNull := false, err := none }, w1) := by
  simp [ExtractFloat64Array, heval, hext]

/-- The extraction of an expression that evaluates, non-null and without error, to a JSON
value on which `AsFloat64Array` fails: the `nil` vector, not null, and that error as it is. -/
theorem ExtractFloat64Array_fail (h : JSONHost J F) (expr : Expression σ R J)
    (row : R) (w w1 : σ) (binJson : J) (e : GoError)
    (heval : expr.EvalJSON row w = ((binJson, false, none), w1))
    (hext : (AsFloat64Array h binJson).2 = some e) :
    ExtractFloat64Array h expr row w
      = ({ values := [], isNull := false, err := some e }, w1) := by
  simp [ExtractFloat64Array, heval, hext]

end AdapterLemmas

section AdapterClaims2

variable {σ R J F : Type} [Zero F] [Add F] [Mul F] [Div F]

/-- C11, as amended: for both adapters, if argument 1 evaluates to null without error the
result is null with no error, whatever argument 2 is; if argument 1 evaluates, non-null and
without error, to a JSON value that extracts to a vector and argument 2 then evaluates to
null without error, the result is null with no error; and if argument 1 evaluates, non-null
and without error, to a JSON value whose extraction fails, the result is that extraction
error with the null flag false and the host state left by the evaluation of argument 1
alone, so argument 2 (null or not) is not evaluated. -/
theorem C11_null_propagation (h : JSONHost J F) (Sqrt : F → F)
    (b : baseBuiltinFunc σ R J) (row : R) (w w1 w2 : σ) (bj1 bj2 : J) (isNull1 : Bool)
    (v1 : List F)
    (heval1 : (b.args 0).EvalJSON row w = ((bj1, isNull1, none), w1)) :
    (isNull1 = true →
        builtinXcosinesimSig.evalReal h Sqrt b row w
            = ({ val := 0, isNull := true, err := none }, w1)
          ∧ builtinXdotproductSig.evalReal h b row w
            = ({ val := 0, isNull := true, err := none }, w1))
      ∧ (isNull1 = false → AsFloat64Array h bj1 = (v1, none) →
          (b.args 1).EvalJSON row w1 = ((bj2, true, none), w2) →
        builtinXcosinesimSig.evalReal h Sqrt b row w
            = ({ val := 0, isNull := true, err := none }, w2)
          ∧ builtinXdotproductSig.evalReal h b row w
            = ({ val := 0, isNull := true, err := none }, w2))
      ∧ (isNull1 = false → ∀ e : GoError, (AsFloat64Array h bj1).2 = some e →
        builtinXcosinesimSig.evalReal h Sqrt b row w
            = ({ val := 0, isNull := false, err := some e }, w1)
          ∧ builtinXdotproductSig.evalReal h b row w
            = ({ val := 0, isNull := false, err := some e }, w1)) := by
  refine ⟨?_, ?_, ?_⟩
  · intro h1
    subst h1
    have hx := ExtractFloat64Array_null_or_error h (b.args 0) row w w1 bj1 true none heval1
      (Or.inl rfl)
    simp [builtinXcosinesimSig.evalReal, builtinXdotproductSig.evalReal, hx]
  · intro h1 hext1 heval2
    subst h1
    have hx1 := ExtractFloat64Array_ok h (b.args 0) row w w1 bj1 v1 heval1 hext1
    have hx2 := ExtractFloat64Array_null_or_error h (b.args 1) row w1 w2 bj2 true none heval2
      (Or.inl rfl)
    simp [builtinXcosinesimSig.evalReal, builtinXdotproductSig.evalReal, hx1, hx2]
  · intro h1 e hext1
    subst h1
    have hx := ExtractFloat64Array_fail h (b.args 0) row w w1 bj1 e heval1 hext1
    simp [builtinXcosinesimSig.evalReal, builtinXdotproductSig.evalReal, hx]

/-- C12, as amended: for both adapters, if the extraction of argument 1 fails (the value
is not a JSON array, or an element does not coerce), or argument 1 extracts to a vector and
the extraction of argument 2 fails, then `evalReal` returns the value `0`, the null flag
false and the extraction error itself, not wrapped with any message. -/
theorem C12_extraction_error_unwrapped (h : JSONHost J F) (Sqrt : F → F)
    (b : baseBuiltinFunc σ R J) (row : R) (w w1 w2 : σ) (bj1 bj2 : J) (v1 : List F)
    (e : GoError)
    (heval1 : (b.args 0).EvalJSON row w = ((bj1, false, none), w1)) :
    ((AsFloat64Array h bj1).2 = some e →
        builtinXcosinesimSig.evalReal h Sqrt b row w
            = ({ val := 0, isNull := false, err := some e }, w1)
          ∧ builtinXdotproductSig.evalReal h b row w
            = ({ val := 0, isNull := false, err := some e }, w1))
      ∧ (AsFloat64Array h bj1 = (v1, none) →
          (b.args 1).EvalJSON row w1 = ((bj2, false, none), w2) →
          (AsFloat64Array h bj2).2 = some e →
        builtinXcosinesimSig.evalReal h Sqrt b row w
            = ({ val := 0, isNull := false, err := some e }, w2)
          ∧ builtinXdotproductSig.evalReal h b row w
            = ({ val := 0, isNull := false, err := some e }, w2)) := by
  constructor
  · intro hext1
    have hx := ExtractFloat64Array_fail h (b.args 0) row w w1 bj1 e heval1 hext1
    simp [builtinXcosinesimSig.evalReal, builtinXdotproductSig.evalReal, hx]
  · intro hext1 heval2 hext2
    have hx1 := ExtractFloat64Array_ok h (b.args 0) row w w1 bj1 v1 heval1 hext1
    have hx2 := ExtractFloat64Array_fail h (b.args 1) row w1 w2 bj2 e heval2 hext2
    simp [builtinXcosinesimSig.evalReal, builtinXdotproductSig.evalReal, hx1, hx2]

/-- C13: for both adapters, when both arguments evaluate, non-null and without error, to
JSON arrays that extract to vectors `v1`, `v2` of equal non-zero length, `evalReal` returns
the value of `Cosine(v1, v2)` (respectively `DotProduct(v1, v2)`), not null, with no error. -/
theorem C13_value_is_kernel_value (h : JSONHost J F) (Sqrt : F → F)
    (b : baseBuiltinFunc σ R J) (row : R) (w w1 w2 : σ) (bj1 bj2 : J) (v1 v2 : List F)
    (heval1 : (b.args 0).EvalJSON row w = ((bj1, false, none), w1))
    (hext1 : AsFloat64Array h bj1 = (v1, none))
    (heval2 : (b.args 1).EvalJSON row w1 = ((bj2, false, none), w2))
    (hext2 : AsFloat64Array h bj2 = (v2, none))
    (hlen : v1.length = v2.length) (hne : v1.length ≠ 0) :
    builtinXcosinesimSig.evalReal h Sqrt b row w
        = ({ val := (Cosine Sqrt v1 v2).1, isNull := false, err := none }, w2)
      ∧ builtinXdotproductSig.evalReal h b row w
        = ({ val := (DotProduct v1 v2).1, isNull := false, err := none }, w2)
      ∧ (Cosine Sqrt v1 v2).2 = none ∧ (DotProduct v1 v2).2 = none := by
  have hx1 := ExtractFloat64Array_ok h (b.args 0) row w w1 bj1 v1 heval1 hext1
  have hx2 := ExtractFloat64Array_ok h (b.args 1) row w1 w2 bj2 v2 heval2 hext2
  have hc : (Cosine Sqrt v1 v2).2 = none := by simp [Cosine, ← hlen, hne]
  have hd : (DotProduct v1 v2).2 = none := by simp [DotProduct, ← hlen, hne]
  refine ⟨?_, ?_, hc, hd⟩
  · simp [builtinXcosinesimSig.evalReal, hx1, hx2, hc]
  · simp [builtinXdotproductSig.evalReal, hx1, hx2, hd]

/-- C14: for both adapters, when both arguments extract to vectors that the kernel rejects
(different lengths, or both empty), `evalReal` returns the value `0`, the null flag false
and the kernel's error wrapped with the adapter's message. -/
theorem C14_kernel_error_wrapped (h : JSONHost J F) (Sqrt : F → F)
    (b : baseBuiltinFunc σ R J) (row : R) (w w1 w2 : σ) (bj1 bj2 : J) (v1 v2 : List F)
    (heval1 : (b.args 0).EvalJSON row w = ((bj1, false, none), w1))
    (hext1 : AsFloat64Array h bj1 = (v1, none))
    (heval2 : (b.args 1).EvalJSON row w1 = ((bj2, false, none), w2))
    (hext2 : AsFloat64Array h bj2 = (v2, none))
    (hbad : v1.length ≠ v2.length ∨ (v1.length = 0 ∧ v2.length = 0)) :
    builtinXcosinesimSig.evalReal h Sqrt b row w
        = ({ val := 0, isNull := false
             err := some (errors.Wrap
               (errors.New (if v1.length ≠ v2.length
                 then "Invalid vectors: two arrays of the same length were expected"
                 else "Invalid vectors: two non-zero length arrays were expected"))
               "Invalid JSON Array: an array of non-zero numbers was expected") }, w2)
      ∧ builtinXdotproductSig.evalReal h b row w
        = ({ val := 0, isNull := false
             err := some (errors.Wrap
               (errors.New (if v1.length ≠ v2.length
                 then "Invalid vectors: two arrays of the same length were expected"
                 else "Invalid vectors: two non-zero length arrays were expected"))
               "Invalid JSON Array: an array of non-zero numbers were expected") }, w2) := by
  have hx1 := ExtractFloat64Array_ok h (b.args 0) row w w1 bj1 v1 heval1 hext1
  have hx2 := ExtractFloat64Array_ok h (b.args 1) row w1 w2 bj2 v2 heval2 hext2
  rcases hbad with hne | ⟨h1, h2⟩
  · simp [builtinXcosinesimSig.evalReal, builtinXdotproductSig.evalReal, hx1, hx2, Cosine,
      DotProduct, hne]
  · simp [builtinXcosinesimSig.evalReal, builtinXdotproductSig.evalReal, hx1, hx2, Cosine,
      DotProduct, h1, h2]

end AdapterClaims2

/-! ## The vector kernel: further properties -/

section KernelClaims2

variable {F : Type} [Zero F] [Add F] [Mul F]

/-- C15: when `a` and `b` are both empty, `DotProduct(a, b)` and `Cosine(a, b)` both return
the value `0` together with the error
"Invalid vectors: two non-zero length arrays were expected". -/
theorem C15_both_empty [Div F] (Sqrt : F → F) (a b : List F) (ha : a.length = 0)
    (hb : b.length = 0) :
    DotProduct a b
        = (0, some (errors.New "Invalid vectors: two non-zero length arrays were expected"))
      ∧ Cosine Sqrt a b
        = (0, some (errors.New "Invalid vectors: two non-zero length arrays were expected")) := by
  simp [DotProduct, Cosine, ha, hb]

/-- C18: in every carrier whose multiplication is commutative (the reals, the rationals and
IEEE 754 binary64 are such), `DotProduct(a, b)` and `DotProduct(b, a)` return the same
result tuple, error or value, and so do `Cosine(a, b)` and `Cosine(b, a)`. -/
theorem C18_symmetric [Div F] (Sqrt : F → F) (hcomm : ∀ x y : F, x * y = y * x)
    (a b : List F) :
    DotProduct a b = DotProduct b a ∧ Cosine Sqrt a b = Cosine Sqrt b a := by
  by_cases hlen : a.length = b.length
  · by_cases h0 : a.length = 0
    · have hb0 : b.length = 0 := by omega
      simp [DotProduct, Cosine, h0, hb0]
    · have hne : a ≠ [] := by
        intro ha
        exact h0 (by rw [ha]; rfl)
      have hnb : b ≠ [] := by
        intro hb
        apply h0
        rw [hlen, hb]
        rfl
      have hsum : (fun (sum : F) (i : Nat) => sum + b.getD i 0 * a.getD i 0)
          = (fun (sum : F) (i : Nat) => sum + a.getD i 0 * b.getD i 0) := by
        funext sum i
        rw [hcomm]
      constructor
      · rw [DotProduct_ok a b hne hlen, DotProduct_ok b a hnb hlen.symm, hsum, hlen]
      · rw [Cosine_ok Sqrt a b hne hlen, Cosine_ok Sqrt b a hnb hlen.symm, hsum, hlen,
          hcomm (Sqrt _) (Sqrt _)]
  · have hlen2 : ¬ b.length = a.length := fun hh => hlen hh.symm
    simp [DotProduct, Cosine, hlen, hlen2]

end KernelClaims2

/-- Over the reals the loop of a sum from `0` is the finite sum over its index range. -/
theorem rangeFold_eq_sum (f : Nat → ℝ) (n : Nat) :
    (List.range n).foldl (fun sum i => sum + f i) 0 = ∑ i ∈ Finset.range n, f i := by
  induction n with
  | zero => simp
  | succ n ih => rw [List.range_succ, List.foldl_append, ih, Finset.sum_range_succ]; rfl

/-- Over the reals, on vectors of equal non-zero length, `Cosine` returns the quotient of
the three finite sums and no error. -/
theorem Cosine_real (a b : List ℝ) (hne : a ≠ []) (hlen : a.length = b.length) :
    Cosine Real.sqrt a b
      = ((∑ i ∈ Finset.range a.length, a.getD i 0 * b.getD i 0)
          / (Real.sqrt (∑ i ∈ Finset.range a.length, a.getD i 0 * a.getD i 0)
            * Real.sqrt (∑ i ∈ Finset.range a.length, b.getD i 0 * b.getD i 0)), none) := by
  rw [Cosine_ok Real.sqrt a b hne hlen,
    rangeFold_eq_sum (fun i => a.getD i 0 * b.getD i 0),
    rangeFold_eq_sum (fun i => a.getD i 0 * a.getD i 0),
    rangeFold_eq_sum (fun i => b.getD i 0 * b.getD i 0)]

/-- Over the reals a vector with a non-zero entry has a positive sum of squares. -/
theorem sumSquares_pos (a : List ℝ) (hnz : ∃ x ∈ a, x ≠ 0) :
    0 < ∑ i ∈ Finset.range a.length, a.getD i 0 * a.getD i 0 := by
  rw [← rangeFold_eq_sum (fun i => a.getD i 0 * a.getD i 0), dotLoop_eq_foldl a a 0 rfl]
  exact selfFold_gt a 0 hnz

/-- C16: in exact real arithmetic, for non-empty vectors `a`, `b` of equal length, each with
a non-zero entry (a non-zero norm), and every scalar `k > 0`, `Cosine(k·a, b)` and
`Cosine(a, k·b)` both equal `Cosine(a, b)`. -/
theorem C16_scale_invariant (a b : List ℝ) (k : ℝ) (hlen : a.length = b.length)
    (hne : a ≠ []) (ha : ∃ x ∈ a, x ≠ 0) (hb : ∃ y ∈ b, y ≠ 0) (hk : 0 < k) :
    Cosine Real.sqrt (a.map (fun x => k * x)) b = Cosine Real.sqrt a b
      ∧ Cosine Real.sqrt a (b.map (fun y => k * y)) = Cosine Real.sqrt a b := by
  have hgetD : ∀ (l : List ℝ) (i : Nat), (l.map (fun x => k * x)).getD i 0 = k * l.getD i 0 := by
    intro l i
    have := List.getD_map (l := l) (d := (0 : ℝ)) (n := i) (fun x => k * x)
    simpa using this
  have h1 := sumSquares_pos a ha
  have h2 := sumSquares_pos b hb
  have hs1 : Real.sqrt (∑ i ∈ Finset.range a.length, a.getD i 0 * a.getD i 0) ≠ 0 :=
    (Real.sqrt_pos.mpr h1).ne.symm
  have hs2 : Real.sqrt (∑ i ∈ Finset.range b.length, b.getD i 0 * b.getD i 0) ≠ 0 :=
    (Real.sqrt_pos.mpr h2).ne.symm
  have hsq : ∀ S : ℝ, Real.sqrt (k * k * S) = k * Real.sqrt S := by
    intro S
    rw [Real.sqrt_mul (mul_self_nonneg k), Real.sqrt_mul_self hk.le]
  have hmapne : a.map (fun x => k * x) ≠ [] := by simpa using hne
  constructor
  · rw [Cosine_real _ b hmapne (by simpa using hlen), Cosine_real a b hne hlen]
    simp only [List.length_map, hgetD]
    have e1 : ∑ i ∈ Finset.range a.length, k * a.getD i 0 * b.getD i 0
        = k * ∑ i ∈ Finset.range a.length, a.getD i 0 * b.getD i 0 := by
      rw [Finset.mul_sum]
      exact Finset.sum_congr rfl (fun i _ => by ring)
    have e2 : ∑ i ∈ Finset.range a.length, k * a.getD i 0 * (k * a.getD i 0)
        = k * k * ∑ i ∈ Finset.range a.length, a.getD i 0 * a.getD i 0 := by
      rw [Finset.mul_sum]
      exact Finset.sum_congr rfl (fun i _ => by ring)
    rw [e1, e2, hsq, mul_assoc k, mul_div_mul_left _ _ hk.ne.symm]
  · rw [Cosine_real a _ hne (by simpa using hlen), Cosine_real a b hne hlen]
    simp only [hgetD]
    have e1 : ∑ i ∈ Finset.range a.length, a.getD i 0 * (k * b.getD i 0)
        = k * ∑ i ∈ Finset.range a.length, a.getD i 0 * b.getD i 0 := by
      rw [Finset.mul_sum]
      exact Finset.sum_congr rfl (fun i _ => by ring)
    have e2 : ∑ i ∈ Finset.range a.length, k * b.getD i 0 * (k * b.getD i 0)
        = k * k * ∑ i ∈ Finset.range a.length, b.getD i 0 * b.getD i 0 := by
      rw [Finset.mul_sum]
      exact Finset.sum_congr rfl (fun i _ => by ring)
    rw [e1, e2, hsq, mul_left_comm _ k, mul_div_mul_left _ _ hk.ne.symm]

/-- C19: in exact real arithmetic, for non-empty vectors `a`, `b` of equal length, each with
a non-zero entry (a non-zero norm), the value returned by `Cosine(a, b)` lies in `[-1, 1]`
and no error is returned. -/
theorem C19_cosine_in_unit_interval (a b : List ℝ) (hlen : a.length = b.length)
    (hne : a ≠ []) (ha : ∃ x ∈ a, x ≠ 0) (hb : ∃ y ∈ b, y ≠ 0) :
    (Cosine Real.sqrt a b).2 = none
      ∧ -1 ≤ (Cosine Real.sqrt a b).1 ∧ (Cosine Real.sqrt a b).1 ≤ 1 := by
  have h1 := sumSquares_pos a ha
  have h2 := sumSquares_pos b hb
  rw [← hlen] at h2
  rw [Cosine_real a b hne hlen]
  have hcs := Finset.sum_mul_sq_le_sq_mul_sq (Finset.range a.length)
    (fun i => a.getD i 0) (fun i => b.getD i 0)
  simp only [pow_two] at hcs
  rw [← pow_two] at hcs
  have habs := Real.abs_le_sqrt hcs
  rw [Real.sqrt_mul h1.le] at habs
  have hD : 0 < Real.sqrt (∑ i ∈ Finset.range a.length, a.getD i 0 * a.getD i 0)
      * Real.sqrt (∑ i ∈ Finset.range a.length, b.getD i 0 * b.getD i 0) :=
    mul_pos (Real.sqrt_pos.mpr h1) (Real.sqrt_pos.mpr h2)
  obtain ⟨hlo, hhi⟩ := abs_le.mp habs
  refine ⟨rfl, ?_, ?_⟩
  · show -1 ≤ _ / _
    rw [le_div_iff₀ hD]
    linarith
  · show _ / _ ≤ 1
    rw [div_le_one hD]
    exact hhi

/-! ## The vector returned by a failed extraction -/

section ExtractorClaims2

variable {J F : Type}

/-- Among the elements of a JSON array that do not coerce there is a first one. -/
theorem exists_first_failure (h : JSONHost J F) (binJson : J)
    (hbad : ∃ i, i < h.GetElemCount binJson
      ∧ (h.ConvertJSONToFloat (h.ArrayGetElem binJson i)).2 ≠ none) :
    ∃ (k : Nat) (e : GoError),
      k < h.GetElemCount binJson
        ∧ (∀ j, j < k → (h.ConvertJSONToFloat (h.ArrayGetElem binJson j)).2 = none)
        ∧ (h.ConvertJSONToFloat (h.ArrayGetElem binJson k)).2 = some e := by
  classical
  have hmin := Nat.find_spec hbad
  obtain ⟨e, he⟩ := Option.ne_none_iff_exists'.mp hmin.2
  refine ⟨Nat.find hbad, e, hmin.1, ?_, he⟩
  intro j hj
  by_contra hne
  exact Nat.find_min hbad hj ⟨by omega, hne⟩

/-- C17, as amended: on a JSON array with an element that does not coerce, `AsFloat64Array`
returns the coercion error of the first such element `k` together with a vector that is not
`nil`: it has the length of the array, holds at every index up to `k` the value returned by
the coercion of that element, and `0` at every index after `k`. -/
theorem C17_partial_vector [Zero F] (h : JSONHost J F) (binJson : J)
    (hty : h.TypeCode binJson = h.JSONTypeCodeArray)
    (hbad : ∃ i, i < h.GetElemCount binJson
      ∧ (h.ConvertJSONToFloat (h.ArrayGetElem binJson i)).2 ≠ none) :
    ∃ (k : Nat) (e : GoError),
      k < h.GetElemCount binJson
        ∧ (∀ j, j < k → (h.ConvertJSONToFloat (h.ArrayGetElem binJson j)).2 = none)
        ∧ (h.ConvertJSONToFloat (h.ArrayGetElem binJson k)).2 = some e
        ∧ (AsFloat64Array h binJson).2 = some e
        ∧ (AsFloat64Array h binJson).1.length = h.GetElemCount binJson
        ∧ (∀ j, j ≤ k → (AsFloat64Array h binJson).1[j]?
            = some (h.ConvertJSONToFloat (h.ArrayGetElem binJson j)).1)
        ∧ (∀ j, k < j → j < h.GetElemCount binJson →
            (AsFloat64Array h binJson).1[j]? = some 0)
        ∧ (AsFloat64Array h binJson).1 ≠ [] := by
  obtain ⟨k, e, hk, hbefore, hfail⟩ := exists_first_failure h binJson hbad
  obtain ⟨e1, _, e3, _, e5, e6⟩ := AsFloat64Array.loop_first_failure h binJson
    (h.GetElemCount binJson) k e hk hfail k
    { values := List.replicate (h.GetElemCount binJson) 0, err := none, i := 0, converted := [] }
    (by simp) rfl (fun j _ hj => hbefore j hj)
  rw [← AsFloat64Array.run_array h binJson hty] at e1 e3 e5 e6
  simp only [List.length_replicate] at e3 e6
  refine ⟨k, e, hk, hbefore, hfail, e1, e3, ?_, ?_, ?_⟩
  · intro j hj
    exact e6 j (Nat.zero_le _) hj (by omega)
  · intro j hkj hjn
    show (AsFloat64Array.run h binJson).values[j]? = some 0
    rw [e5 j (Or.inr hkj)]
    simp [hjn]
  · intro hnil
    have hlen : (AsFloat64Array h binJson).1.length = h.GetElemCount binJson := e3
    rw [hnil] at hlen
    simp only [List.length_nil] at hlen
    omega

end ExtractorClaims2

/-! ## Evaluations on explicit inputs -/

set_option maxRecDepth 1000000

set_option exponentiation.threshold 5000

/-- C1 on `a = [1]`, `b = [1, 2]`. -/
theorem C1_length_mismatch_witness :
    ([(1 : ℝ)] ≠ [] ∧ [(1 : ℝ), 2] ≠ [] ∧ [(1 : ℝ)].length ≠ [(1 : ℝ), 2].length)
      ∧ DotProduct [(1 : ℝ)] [1, 2]
        = (0, some (errors.New "Invalid vectors: two arrays of the same length were expected"))
      ∧ Cosine Real.sqrt [(1 : ℝ)] [1, 2]
        = (0, some (errors.New "Invalid vectors: two arrays of the same length were expected")) :=
  ⟨⟨by simp, by simp, by simp⟩,
    C1_length_mismatch Real.sqrt [(1 : ℝ)] [1, 2] (by simp) (by simp) (by simp)⟩

/-- C2 as stated fails on `a = []`, `b = [1]`: both functions return the length-mismatch
error, which is not the empty-vector error. -/
theorem C2_counterexample :
    DotProduct ([] : List ℝ) [1]
        = (0, some (errors.New "Invalid vectors: two arrays of the same length were expected"))
      ∧ Cosine Real.sqrt ([] : List ℝ) [1]
        = (0, some (errors.New "Invalid vectors: two arrays of the same length were expected"))
      ∧ (DotProduct ([] : List ℝ) [1]).2
        ≠ some (errors.New "Invalid vectors: two non-zero length arrays were expected")
      ∧ (Cosine Real.sqrt ([] : List ℝ) [1]).2
        ≠ some (errors.New "Invalid vectors: two non-zero length arrays were expected") := by
  refine ⟨?_, ?_, ?_, ?_⟩ <;> simp [DotProduct, Cosine]

/-- C3 on the zero vector `a = [0, 0]` and `b = [1, 2]`: no error from either function. -/
theorem C3_error_iff_bad_length_witness :
    ([(0 : ℝ), 0].length = [(1 : ℝ), 2].length ∧ [(0 : ℝ), 0].length ≠ 0)
      ∧ (DotProduct [(0 : ℝ), 0] [1, 2]).2 = none
      ∧ (Cosine Real.sqrt [(0 : ℝ), 0] [1, 2]).2 = none :=
  ⟨⟨rfl, by decide⟩,
    (C3_error_iff_bad_length Real.sqrt [(0 : ℝ), 0] [1, 2]).2.2.1 rfl (by decide)⟩

/-- C4 on the three input pairs of `TestDotProduct`, in exact rational arithmetic:
the results are `8.55`, `15.05` and `-28.0`. -/
theorem C4_dot_product_is_left_fold_witness :
    DotProduct [(11 : ℚ) / 10, 12 / 10, 13 / 10, 14 / 10, 15 / 10]
        [11 / 10, 12 / 10, 13 / 10, 14 / 10, 15 / 10] = (855 / 100, none)
      ∧ DotProduct [(21 : ℚ) / 10, 22 / 10, 23 / 10, 24 / 10, 25 / 10]
        [11 / 10, 12 / 10, 13 / 10, 14 / 10, 15 / 10] = (1505 / 100, none)
      ∧ DotProduct [(-1 : ℚ), -2, -3, -4, -5, -6]
        [1, 11 / 10, 12 / 10, 13 / 10, 14 / 10, 15 / 10] = (-28, none) := by
  refine ⟨?_, ?_, ?_⟩
  · rw [C4_dot_product_is_left_fold _ _ (by simp) (by simp)]
    norm_num [dotFoldSpec]
  · rw [C4_dot_product_is_left_fold _ _ (by simp) (by simp)]
    norm_num [dotFoldSpec]
  · rw [C4_dot_product_is_left_fold _ _ (by simp) (by simp)]
    norm_num [dotFoldSpec]

/-- C5 as stated fails on four non-empty vectors of `float64`: on `[0.0]` the sum of squares
is `0`, on `[2^700]` the square overflows to `+Inf`, on `[2^-600]` it underflows to `0`, on
`[NaN]` it is a NaN; each time `Cosine(a, a)` returns the `nil` error and a NaN, which is not
within `1e-9` of `1.0`. -/
theorem C5_counterexample :
    [(0 : float64)] ≠ []
      ∧ Cosine math.Sqrt [(0 : float64)] [0] = (float64.nan, none)
      ∧ Cosine math.Sqrt [float64.finite false 4503599627370496 648]
          [float64.finite false 4503599627370496 648] = (float64.nan, none)
      ∧ Cosine math.Sqrt [float64.finite false 4503599627370496 (-652)]
          [float64.finite false 4503599627370496 (-652)] = (float64.nan, none)
      ∧ Cosine math.Sqrt [float64.nan] [float64.nan] = (float64.nan, none)
      ∧ ¬ float64.within float64.nan 1 (1 / 10 ^ 9) := by
  refine ⟨by simp, by decide, by decide, by decide, by decide, ?_⟩
  simp [float64.within]

/-- C5, as amended, on the `float64` input `[1.1, 1.2, 1.3, 1.4, 1.5]` of `TestXCosineSim`:
the sum of squares is the positive number `4813222101752218 * 2^-49`, and `Cosine(a, a)`
returns `1 + 2^-52`, within `1e-9` of `1.0`. -/
theorem C5_cosine_self_near_one_witness :
    ([float64.lit_1_1, float64.lit_1_2, float64.lit_1_3, float64.lit_1_4, float64.lit_1_5] ≠ []
      ∧ float64.posFinite (DotProduct
          [float64.lit_1_1, float64.lit_1_2, float64.lit_1_3, float64.lit_1_4, float64.lit_1_5]
          [float64.lit_1_1, float64.lit_1_2, float64.lit_1_3, float64.lit_1_4,
            float64.lit_1_5]).1)
      ∧ Cosine math.Sqrt
        [float64.lit_1_1, float64.lit_1_2, float64.lit_1_3, float64.lit_1_4, float64.lit_1_5]
        [float64.lit_1_1, float64.lit_1_2, float64.lit_1_3, float64.lit_1_4, float64.lit_1_5]
        = (float64.finite false 4503599627370497 (-52), none)
      ∧ float64.within (float64.finite false 4503599627370497 (-52)) 1 (1 / 10 ^ 9) := by
  have hS : (DotProduct
      [float64.lit_1_1, float64.lit_1_2, float64.lit_1_3, float64.lit_1_4, float64.lit_1_5]
      [float64.lit_1_1, float64.lit_1_2, float64.lit_1_3, float64.lit_1_4, float64.lit_1_5]).1
      = float64.finite false 4813222101752218 (-49) := by decide
  have hQ : math.Sqrt (float64.finite false 4813222101752218 (-49))
      = float64.finite false 6584348906900776 (-51) := by decide
  have hP : float64.finite false 6584348906900776 (-51)
      * float64.finite false 6584348906900776 (-51)
      = float64.finite false 4813222101752217 (-49) := by decide
  have hV : float64.finite false 4813222101752218 (-49)
      / float64.finite false 4813222101752217 (-49)
      = float64.finite false 4503599627370497 (-52) := by decide
  have hpos : float64.posFinite (DotProduct
      [float64.lit_1_1, float64.lit_1_2, float64.lit_1_3, float64.lit_1_4, float64.lit_1_5]
      [float64.lit_1_1, float64.lit_1_2, float64.lit_1_3, float64.lit_1_4,
        float64.lit_1_5]).1 := ⟨4813222101752218, -49, hS, by decide⟩
  have h := C5_cosine_self_near_one
    [float64.lit_1_1, float64.lit_1_2, float64.lit_1_3, float64.lit_1_4, float64.lit_1_5]
    (by simp) hpos
  rw [hS, hQ, hP, hV] at h
  refine ⟨⟨by simp, hpos⟩, h.1, ?_⟩
  have h2 := h.2
  rw [h.1] at h2
  exact h2

/-- C6 on `a = [3, 4]`, `b = [4, 3]`: the cosine is `24 / (Sqrt 25 * Sqrt 25)`. -/
theorem C6_cosine_refines_dot_products_witness :
    ([(3 : ℝ), 4] ≠ [] ∧ [(3 : ℝ), 4].length = [(4 : ℝ), 3].length)
      ∧ Cosine Real.sqrt [(3 : ℝ), 4] [4, 3] = (cosineSpec Real.sqrt [(3 : ℝ), 4] [4, 3], none)
      ∧ cosineSpec Real.sqrt [(3 : ℝ), 4] [4, 3] = 24 / (Real.sqrt 25 * Real.sqrt 25) := by
  refine ⟨⟨by simp, rfl⟩,
    C6_cosine_refines_dot_products Real.sqrt [(3 : ℝ), 4] [4, 3] (by simp) rfl, ?_⟩
  norm_num [cosineSpec, DotProduct, List.range_succ]

/-- C7 on the JSON string value `"x"` and the bare number `1`. -/
theorem C7_not_an_array_witness :
    ((specHost ℚ).TypeCode (.other "x") ≠ (specHost ℚ).JSONTypeCodeArray)
      ∧ AsFloat64Array (specHost ℚ) (.other "x")
        = ([], some (errors.New "Invalid JSON Array: an array of numbers were expected"))
      ∧ AsFloat64Array (specHost ℚ) (.number 1)
        = ([], some (errors.New "Invalid JSON Array: an array of numbers were expected")) :=
  ⟨by decide,
    (C7_not_an_array (specHost ℚ) (.other "x") (by decide)).1,
    (C7_not_an_array (specHost ℚ) (.number 1) (by decide)).1⟩

/-- C8 on the JSON array `[3, 1, 3]`: the vector `[3, 1, 3]`, in order and with the
repeated entry kept. -/
theorem C8_array_of_numbers_witness :
    AsFloat64Array (specHost ℚ) (.array [.number 3, .number 1, .number 3])
      = ([3, 1, 3], none) := by
  rw [(C8_array_of_numbers (specHost ℚ) (.array [.number 3, .number 1, .number 3]) rfl
    (by
      intro i hi
      have hi3 : i < 3 := hi
      interval_cases i <;> rfl)).1]
  rfl

/-- C9 on a constant expression whose value is the JSON array `[1, "x", 2, "y"]`: the
extraction returns the error of the element at index `1`, and the elements at the indices
`0` and `1` are the only ones handed to the coercion. -/
theorem C9_first_failing_element_witness :
    ExtractFloat64Array (specHost ℚ)
        (constExpr (JSONValue.array [.number 1, .other "x", .number 2, .other "y"], false, none))
        () (0 : Nat)
        = ({ values := [], isNull := false
             err := some (errors.New "cannot convert JSON value to float") }, 0)
      ∧ AsFloat64Array.converted (specHost ℚ)
          (JSONValue.array [.number 1, .other "x", .number 2, .other "y"]) = [0, 1] := by
  obtain ⟨k, e, _, hbefore, hfail, hres, hconv, _⟩ :=
    C9_first_failing_element (specHost ℚ)
      (constExpr (JSONValue.array [.number 1, .other "x", .number 2, .other "y"], false, none))
      () (0 : Nat) 0 (JSONValue.array [.number 1, .other "x", .number 2, .other "y"]) rfl rfl
      ⟨1, by decide, by simp [specHost, JSONValue.ArrayGetElem, JSONValue.ConvertJSONToFloat]⟩
  have hk : k = 1 := by
    have h1 : ¬ (1 < k) := by
      intro hlt
      have := hbefore 1 hlt
      simp [specHost, JSONValue.ArrayGetElem, JSONValue.ConvertJSONToFloat] at this
    have h0 : k ≠ 0 := by
      intro h0
      subst h0
      simp [specHost, JSONValue.ArrayGetElem, JSONValue.ConvertJSONToFloat] at hfail
    omega
  subst hk
  have he : e = errors.New "cannot convert JSON value to float" := by
    simp [specHost, JSONValue.ArrayGetElem, JSONValue.ConvertJSONToFloat] at hfail
    exact hfail.symm
  subst he
  exact ⟨hres, by rw [hconv]; rfl⟩

/-- C10 on stub arguments that count their evaluations: with a null argument 1, and with an
argument 1 whose evaluation fails, both adapters return after one evaluation (the counter
goes from `0` to `1`), whatever argument 2 is. -/
theorem C10_first_argument_short_circuit_witness :
    (builtinXcosinesimSig.evalReal (specHost ℝ) Real.sqrt
        (twoArgs (countingExpr (JSONValue.other "null", true, none))
          (countingExpr (JSONValue.array [.number 1], false, none))) () 0
        = ({ val := 0, isNull := true, err := none }, 1)
      ∧ builtinXdotproductSig.evalReal (specHost ℝ)
        (twoArgs (countingExpr (JSONValue.other "null", true, none))
          (countingExpr (JSONValue.array [.number 1], false, none))) () 0
        = ({ val := 0, isNull := true, err := none }, 1))
    ∧ (builtinXcosinesimSig.evalReal (specHost ℝ) Real.sqrt
        (twoArgs (countingExpr (JSONValue.other "", false, some (errors.New "upstream")))
          (countingExpr (JSONValue.array [.number 1], false, none))) () 0
        = ({ val := 0, isNull := false, err := some (errors.New "upstream") }, 1)
      ∧ builtinXdotproductSig.evalReal (specHost ℝ)
        (twoArgs (countingExpr (JSONValue.other "", false, some (errors.New "upstream")))
          (countingExpr (JSONValue.array [.number 1], false, none))) () 0
        = ({ val := 0, isNull := false, err := some (errors.New "upstream") }, 1)) :=
  ⟨(C10_first_argument_short_circuit (specHost ℝ) Real.sqrt
      (twoArgs (countingExpr (JSONValue.other "null", true, none))
        (countingExpr (JSONValue.array [.number 1], false, none))) () 0 1
      (JSONValue.other "null") true none rfl).1 ⟨rfl, rfl⟩,
    (C10_first_argument_short_circuit (specHost ℝ) Real.sqrt
      (twoArgs (countingExpr (JSONValue.other "", false, some (errors.New "upstream")))
        (countingExpr (JSONValue.array [.number 1], false, none))) () 0 1
      (JSONValue.other "") false (some (errors.New "upstream")) rfl).2
      (errors.New "upstream") rfl⟩

/-- C11 as stated fails when argument 1 is the JSON string `"x"` and argument 2 is null,
both stubs that count their evaluations: both adapters return the extraction error of
argument 1 with the null flag false, after one evaluation (the counter goes from `0` to
`1`), although argument 2 would evaluate to null. -/
theorem C11_counterexample :
    (countingExpr (JSONValue.other "null", true, none) :
        Expression Nat Unit (JSONValue ℝ)).EvalJSON () 1 = ((JSONValue.other "null", true, none), 2)
      ∧ builtinXcosinesimSig.evalReal (specHost ℝ) Real.sqrt
          (twoArgs (countingExpr (JSONValue.other "x", false, none))
            (countingExpr (JSONValue.other "null", true, none))) () 0
          = ({ val := 0, isNull := false
               err := some (errors.New "Invalid JSON Array: an array of numbers were expected") }, 1)
      ∧ builtinXdotproductSig.evalReal (specHost ℝ)
          (twoArgs (countingExpr (JSONValue.other "x", false, none))
            (countingExpr (JSONValue.other "null", true, none))) () 0
          = ({ val := 0, isNull := false
               err := some (errors.New "Invalid JSON Array: an array of numbers were expected") }, 1) := by
  refine ⟨rfl, ?_, ?_⟩
  · simp [builtinXcosinesimSig.evalReal, ExtractFloat64Array, twoArgs, countingExpr,
      AsFloat64Array, AsFloat64Array.run, specHost, JSONValue.TypeCode]
  · simp [builtinXdotproductSig.evalReal, ExtractFloat64Array, twoArgs, countingExpr,
      AsFloat64Array, AsFloat64Array.run, specHost, JSONValue.TypeCode]

/-- The extractor on the JSON array `[1, 2]` over the reals. -/
theorem AsFloat64Array_one_two :
    AsFloat64Array (specHost ℝ) (.array [.number 1, .number 2]) = ([1, 2], none) := by
  simp [AsFloat64Array, AsFloat64Array.run, AsFloat64Array.loop, specHost, JSONValue.TypeCode,
    JSONValue.GetElemCount, JSONValue.ArrayGetElem, JSONValue.ConvertJSONToFloat]

/-- C11, as amended, on stub arguments that count their evaluations: a null argument 1 with
a non-array argument 2 (one evaluation, null), the array `[1, 2]` as argument 1 with a null
argument 2 (two evaluations, null), and the JSON string `"x"` as argument 1 with a null
argument 2 (one evaluation, the extraction error of argument 1). -/
theorem C11_null_propagation_witness :
    (builtinXcosinesimSig.evalReal (specHost ℝ) Real.sqrt
        (twoArgs (countingExpr (JSONValue.other "null", true, none))
          (countingExpr (JSONValue.other "x", false, none))) () 0
        = ({ val := 0, isNull := true, err := none }, 1)
      ∧ builtinXdotproductSig.evalReal (specHost ℝ)
        (twoArgs (countingExpr (JSONValue.other "null", true, none))
          (countingExpr (JSONValue.other "x", false, none))) () 0
        = ({ val := 0, isNull := true, err := none }, 1))
    ∧ (builtinXcosinesimSig.evalReal (specHost ℝ) Real.sqrt
        (twoArgs (countingExpr (JSONValue.array [.number 1, .number 2], false, none))
          (countingExpr (JSONValue.other "null", true, none))) () 0
        = ({ val := 0, isNull := true, err := none }, 2)
      ∧ builtinXdotproductSig.evalReal (specHost ℝ)
        (twoArgs (countingExpr (JSONValue.array [.number 1, .number 2], false, none))
          (countingExpr (JSONValue.other "null", true, none))) () 0
        = ({ val := 0, isNull := true, err := none }, 2))
    ∧ (builtinXcosinesimSig.evalReal (specHost ℝ) Real.sqrt
        (twoArgs (countingExpr (JSONValue.other "x", false, none))
          (countingExpr (JSONValue.other "null", true, none))) () 0
        = ({ val := 0, isNull := false
             err := some (errors.New "Invalid JSON Array: an array of numbers were expected") }, 1)
      ∧ builtinXdotproductSig.evalReal (specHost ℝ)
        (twoArgs (countingExpr (JSONValue.other "x", false, none))
          (countingExpr (JSONValue.other "null", true, none))) () 0
        = ({ val := 0, isNull := false
             err := some (errors.New "Invalid JSON Array: an array of numbers were expected") }, 1)) :=
  ⟨(C11_null_propagation (specHost ℝ) Real.sqrt
      (twoArgs (countingExpr (JSONValue.other "null", true, none))
        (countingExpr (JSONValue.other "x", false, none))) () 0 1 1
      (JSONValue.other "null") (JSONValue.other "null") true [] rfl).1 rfl,
    (C11_null_propagation (specHost ℝ) Real.sqrt
      (twoArgs (countingExpr (JSONValue.array [.number 1, .number 2], false, none))
        (countingExpr (JSONValue.other "null", true, none))) () 0 1 2
      (JSONValue.array [.number 1, .number 2]) (JSONValue.other "null") false [1, 2] rfl).2.1
      rfl AsFloat64Array_one_two rfl,
    (C11_null_propagation (specHost ℝ) Real.sqrt
      (twoArgs (countingExpr (JSONValue.other "x", false, none))
        (countingExpr (JSONValue.other "null", true, none))) () 0 1 1
      (JSONValue.other "x") (JSONValue.other "null") false [] rfl).2.2 rfl
      (errors.New "Invalid JSON Array: an array of numbers were expected")
      (by simp [AsFloat64Array, AsFloat64Array.run, specHost, JSONValue.TypeCode])⟩

/-- C12 as stated fails when argument 1 is the JSON array `[1, 2]` and argument 2 is the
bare number `5`: both adapters return the extractor's own error, which is not an error
wrapped with a message. -/
theorem C12_counterexample :
    builtinXcosinesimSig.evalReal (specHost ℝ) Real.sqrt
        (twoArgs (constExpr (JSONValue.array [.number 1, .number 2], false, none))
          (constExpr (JSONValue.number 5, false, none))) () (0 : Nat)
        = ({ val := 0, isNull := false
             err := some (errors.New "Invalid JSON Array: an array of numbers were expected") }, 0)
      ∧ builtinXdotproductSig.evalReal (specHost ℝ)
        (twoArgs (constExpr (JSONValue.array [.number 1, .number 2], false, none))
          (constExpr (JSONValue.number 5, false, none))) () (0 : Nat)
        = ({ val := 0, isNull := false
             err := some (errors.New "Invalid JSON Array: an array of numbers were expected") }, 0)
      ∧ (∀ (cause : GoError) (message : String),
          errors.New "Invalid JSON Array: an array of numbers were expected"
            ≠ errors.Wrap cause message) := by
  have h12 := AsFloat64Array_one_two
  refine ⟨?_, ?_, ?_⟩
  · simp [builtinXcosinesimSig.evalReal, ExtractFloat64Array, twoArgs, constExpr, h12]
    simp [AsFloat64Array, AsFloat64Array.run, specHost, JSONValue.TypeCode]
  · simp [builtinXdotproductSig.evalReal, ExtractFloat64Array, twoArgs, constExpr, h12]
    simp [AsFloat64Array, AsFloat64Array.run, specHost, JSONValue.TypeCode]
  · intro cause message hEq
    cases hEq

/-- C12, as amended, on a first argument that is the JSON string `"x"`: both adapters return
the extractor's error as it is. -/
theorem C12_extraction_error_unwrapped_witness :
    builtinXcosinesimSig.evalReal (specHost ℝ) Real.sqrt
        (twoArgs (constExpr (JSONValue.other "x", false, none))
          (constExpr (JSONValue.array [.number 1, .number 2], false, none))) () (0 : Nat)
        = ({ val := 0, isNull := false
             err := some (errors.New "Invalid JSON Array: an array of numbers were expected") }, 0)
      ∧ builtinXdotproductSig.evalReal (specHost ℝ)
        (twoArgs (constExpr (JSONValue.other "x", false, none))
          (constExpr (JSONValue.array [.number 1, .number 2], false, none))) () (0 : Nat)
        = ({ val := 0, isNull := false
             err := some (errors.New "Invalid JSON Array: an array of numbers were expected") }, 0) :=
  (C12_extraction_error_unwrapped (specHost ℝ) Real.sqrt
    (twoArgs (constExpr (JSONValue.other "x", false, none))
      (constExpr (JSONValue.array [.number 1, .number 2], false, none))) () (0 : Nat) 0 0
    (JSONValue.other "x") (JSONValue.other "x") []
    (errors.New "Invalid JSON Array: an array of numbers were expected") rfl).1
    (by simp [AsFloat64Array, AsFloat64Array.run, specHost, JSONValue.TypeCode])

/-- The extractor on the JSON array `[2.1, 2.2, 2.3, 2.4, 2.5]` over the reals. -/
theorem AsFloat64Array_test_row_left :
    AsFloat64Array (specHost ℝ)
        (.array [.number (21 / 10), .number (22 / 10), .number (23 / 10), .number (24 / 10),
          .number (25 / 10)])
      = ([21 / 10, 22 / 10, 23 / 10, 24 / 10, 25 / 10], none) := by
  simp [AsFloat64Array, AsFloat64Array.run, AsFloat64Array.loop, specHost, JSONValue.TypeCode,
    JSONValue.GetElemCount, JSONValue.ArrayGetElem, JSONValue.ConvertJSONToFloat]

/-- The extractor on the JSON array `[1.1, 1.2, 1.3, 1.4, 1.5]` over the reals. -/
theorem AsFloat64Array_test_row_right :
    AsFloat64Array (specHost ℝ)
        (.array [.number (11 / 10), .number (12 / 10), .number (13 / 10), .number (14 / 10),
          .number (15 / 10)])
      = ([11 / 10, 12 / 10, 13 / 10, 14 / 10, 15 / 10], none) := by
  simp [AsFloat64Array, AsFloat64Array.run, AsFloat64Array.loop, specHost, JSONValue.TypeCode,
    JSONValue.GetElemCount, JSONValue.ArrayGetElem, JSONValue.ConvertJSONToFloat]

/-- In exact real arithmetic the cosine of `[2.1, 2.2, 2.3, 2.4, 2.5]` and
`[1.1, 1.2, 1.3, 1.4, 1.5]` is within `1e-9` of `0.9988980834329954`. -/
theorem Cosine_test_row_value :
    |(Cosine Real.sqrt [(21 : ℝ) / 10, 22 / 10, 23 / 10, 24 / 10, 25 / 10]
        [11 / 10, 12 / 10, 13 / 10, 14 / 10, 15 / 10]).1 - 0.9988980834329954| ≤ 1e-9 := by
  have hval : Cosine Real.sqrt [(21 : ℝ) / 10, 22 / 10, 23 / 10, 24 / 10, 25 / 10]
      [11 / 10, 12 / 10, 13 / 10, 14 / 10, 15 / 10]
      = ((1505 / 100 : ℝ) / (Real.sqrt (2655 / 100) * Real.sqrt (855 / 100)), none) := by
    rw [Cosine_ok Real.sqrt _ _ (by simp) (by simp)]
    norm_num [List.range_succ]
  rw [hval]
  have hD : Real.sqrt (2655 / 100) * Real.sqrt (855 / 100)
      = Real.sqrt ((2270025 : ℝ) / 10000) := by
    rw [← Real.sqrt_mul (by norm_num)]
    norm_num
  have hL : (1506660213850 : ℝ) / 100000000000 ≤ Real.sqrt ((2270025 : ℝ) / 10000) := by
    apply Real.le_sqrt_of_sq_le
    norm_num
  have hU : Real.sqrt ((2270025 : ℝ) / 10000) ≤ (1506660213851 : ℝ) / 100000000000 := by
    rw [Real.sqrt_le_left (by norm_num)]
    norm_num
  have hpos : (0 : ℝ) < Real.sqrt ((2270025 : ℝ) / 10000) := by
    apply Real.sqrt_pos.mpr
    norm_num
  show |(1505 / 100 : ℝ) / (Real.sqrt (2655 / 100) * Real.sqrt (855 / 100))
    - 0.9988980834329954| ≤ 1e-9
  rw [hD, abs_le]
  constructor
  · rw [le_sub_iff_add_le, le_div_iff₀ hpos]
    nlinarith
  · rw [sub_le_iff_le_add, div_le_iff₀ hpos]
    nlinarith

/-- C13 on the second input row of `TestXCosineSim` and of `TestDotProduct`, in exact real
arithmetic: both adapters return the kernel's value, not null, without error; the dot product
is `15.05` and the cosine is within `1e-9` of `0.9988980834329954`. -/
theorem C13_value_is_kernel_value_witness :
    builtinXcosinesimSig.evalReal (specHost ℝ) Real.sqrt
        (twoArgs
          (constExpr (JSONValue.array [.number (21 / 10), .number (22 / 10), .number (23 / 10),
            .number (24 / 10), .number (25 / 10)], false, none))
          (constExpr (JSONValue.array [.number (11 / 10), .number (12 / 10), .number (13 / 10),
            .number (14 / 10), .number (15 / 10)], false, none))) () (0 : Nat)
        = ({ val := (Cosine Real.sqrt [(21 : ℝ) / 10, 22 / 10, 23 / 10, 24 / 10, 25 / 10]
                      [11 / 10, 12 / 10, 13 / 10, 14 / 10, 15 / 10]).1
             isNull := false, err := none }, 0)
      ∧ builtinXdotproductSig.evalReal (specHost ℝ)
        (twoArgs
          (constExpr (JSONValue.array [.number (21 / 10), .number (22 / 10), .number (23 / 10),
            .number (24 / 10), .number (25 / 10)], false, none))
          (constExpr (JSONValue.array [.number (11 / 10), .number (12 / 10), .number (13 / 10),
            .number (14 / 10), .number (15 / 10)], false, none))) () (0 : Nat)
        = ({ val := 1505 / 100, isNull := false, err := none }, 0)
      ∧ |(Cosine Real.sqrt [(21 : ℝ) / 10, 22 / 10, 23 / 10, 24 / 10, 25 / 10]
            [11 / 10, 12 / 10, 13 / 10, 14 / 10, 15 / 10]).1 - 0.9988980834329954| ≤ 1e-9 := by
  obtain ⟨hc, hd, _, _⟩ := C13_value_is_kernel_value (specHost ℝ) Real.sqrt
    (twoArgs
      (constExpr (JSONValue.array [.number (21 / 10), .number (22 / 10), .number (23 / 10),
        .number (24 / 10), .number (25 / 10)], false, none))
      (constExpr (JSONValue.array [.number (11 / 10), .number (12 / 10), .number (13 / 10),
        .number (14 / 10), .number (15 / 10)], false, none))) () (0 : Nat) 0 0 _ _ _ _
    rfl AsFloat64Array_test_row_left rfl AsFloat64Array_test_row_right (by simp) (by simp)
  refine ⟨hc, ?_, Cosine_test_row_value⟩
  rw [hd]
  norm_num [DotProduct, List.range_succ]

/-- The extractor on the JSON array `[1]` over the reals. -/
theorem AsFloat64Array_one :
    AsFloat64Array (specHost ℝ) (.array [.number 1]) = ([1], none) := by
  simp [AsFloat64Array, AsFloat64Array.run, AsFloat64Array.loop, specHost, JSONValue.TypeCode,
    JSONValue.GetElemCount, JSONValue.ArrayGetElem, JSONValue.ConvertJSONToFloat]

/-- The extractor on the empty JSON array over the reals. -/
theorem AsFloat64Array_empty :
    AsFloat64Array (specHost ℝ) (.array []) = ([], none) := by
  simp [AsFloat64Array, AsFloat64Array.run, AsFloat64Array.loop, specHost, JSONValue.TypeCode,
    JSONValue.GetElemCount]

/-- C14 on the JSON arrays `[1, 2]` and `[1]` (different lengths) and on two empty arrays:
both adapters return `0`, not null, and the kernel's error wrapped with their message. -/
theorem C14_kernel_error_wrapped_witness :
    (builtinXcosinesimSig.evalReal (specHost ℝ) Real.sqrt
        (twoArgs (constExpr (JSONValue.array [.number 1, .number 2], false, none))
          (constExpr (JSONValue.array [.number 1], false, none))) () (0 : Nat)
        = ({ val := 0, isNull := false
             err := some (errors.Wrap
               (errors.New "Invalid vectors: two arrays of the same length were expected")
               "Invalid JSON Array: an array of non-zero numbers was expected") }, 0)
      ∧ builtinXdotproductSig.evalReal (specHost ℝ)
        (twoArgs (constExpr (JSONValue.array [.number 1, .number 2], false, none))
          (constExpr (JSONValue.array [.number 1], false, none))) () (0 : Nat)
        = ({ val := 0, isNull := false
             err := some (errors.Wrap
               (errors.New "Invalid vectors: two arrays of the same length were expected")
               "Invalid JSON Array: an array of non-zero numbers were expected") }, 0))
    ∧ (builtinXcosinesimSig.evalReal (specHost ℝ) Real.sqrt
        (twoArgs (constExpr (JSONValue.array [], false, none))
          (constExpr (JSONValue.array [], false, none))) () (0 : Nat)
        = ({ val := 0, isNull := false
             err := some (errors.Wrap
               (errors.New "Invalid vectors: two non-zero length arrays were expected")
               "Invalid JSON Array: an array of non-zero numbers was expected") }, 0)
      ∧ builtinXdotproductSig.evalReal (specHost ℝ)
        (twoArgs (constExpr (JSONValue.array [], false, none))
          (constExpr (JSONValue.array [], false, none))) () (0 : Nat)
        = ({ val := 0, isNull := false
             err := some (errors.Wrap
               (errors.New "Invalid vectors: two non-zero length arrays were expected")
               "Invalid JSON Array: an array of non-zero numbers were expected") }, 0)) :=
  ⟨C14_kernel_error_wrapped (specHost ℝ) Real.sqrt
      (twoArgs (constExpr (JSONValue.array [.number 1, .number 2], false, none))
        (constExpr (JSONValue.array [.number 1], false, none))) () (0 : Nat) 0 0 _ _ [1, 2] [1]
      rfl AsFloat64Array_one_two rfl AsFloat64Array_one (Or.inl (by decide)),
    C14_kernel_error_wrapped (specHost ℝ) Real.sqrt
      (twoArgs (constExpr (JSONValue.array [], false, none))
        (constExpr (JSONValue.array [], false, none))) () (0 : Nat) 0 0 _ _ [] []
      rfl AsFloat64Array_empty rfl AsFloat64Array_empty (Or.inr ⟨rfl, rfl⟩)⟩

/-- C15 on the two empty vectors over the reals. -/
theorem C15_both_empty_witness :
    DotProduct ([] : List ℝ) []
        = (0, some (errors.New "Invalid vectors: two non-zero length arrays were expected"))
      ∧ Cosine Real.sqrt ([] : List ℝ) []
        = (0, some (errors.New "Invalid vectors: two non-zero length arrays were expected")) :=
  C15_both_empty Real.sqrt ([] : List ℝ) [] rfl rfl

/-- C16 on `a = [3, 4]`, `b = [4, 3]` and `k = 2`. -/
theorem C16_scale_invariant_witness :
    Cosine Real.sqrt [(6 : ℝ), 8] [4, 3] = Cosine Real.sqrt [(3 : ℝ), 4] [4, 3]
      ∧ Cosine Real.sqrt [(3 : ℝ), 4] [8, 6] = Cosine Real.sqrt [(3 : ℝ), 4] [4, 3] := by
  have h := C16_scale_invariant [(3 : ℝ), 4] [4, 3] 2 rfl (by simp)
    ⟨3, by simp, by norm_num⟩ ⟨4, by simp, by norm_num⟩ (by norm_num)
  norm_num at h
  exact h

/-- C17 as stated fails on the JSON array `[1, "x", 2]`: `AsFloat64Array` returns the error
together with the vector `[1, 0, 0]`, which is not `nil`. -/
theorem C17_counterexample :
    AsFloat64Array (specHost ℚ) (.array [.number 1, .other "x", .number 2])
        = ([1, 0, 0], some (errors.New "cannot convert JSON value to float"))
      ∧ (AsFloat64Array (specHost ℚ) (.array [.number 1, .other "x", .number 2])).1 ≠ [] := by
  have h : AsFloat64Array (specHost ℚ) (.array [.number 1, .other "x", .number 2])
      = ([1, 0, 0], some (errors.New "cannot convert JSON value to float")) := by
    simp [AsFloat64Array, AsFloat64Array.run, AsFloat64Array.loop, specHost,
      JSONValue.TypeCode, JSONValue.GetElemCount, JSONValue.ArrayGetElem,
      JSONValue.ConvertJSONToFloat]
  refine ⟨h, ?_⟩
  rw [h]
  simp

/-- C17, as amended, on the JSON array `[1, "x", 2]`: the returned vector has length `3`
and is not `nil`, and an error is returned. -/
theorem C17_partial_vector_witness :
    (AsFloat64Array (specHost ℚ) (.array [.number 1, .other "x", .number 2])).1.length = 3
      ∧ (AsFloat64Array (specHost ℚ) (.array [.number 1, .other "x", .number 2])).1 ≠ []
      ∧ (AsFloat64Array (specHost ℚ) (.array [.number 1, .other "x", .number 2])).2 ≠ none := by
  obtain ⟨k, e, _, _, _, herr, hlen, _, _, hne⟩ :=
    C17_partial_vector (specHost ℚ) (.array [.number 1, .other "x", .number 2]) rfl
      ⟨1, by decide, by simp [specHost, JSONValue.ArrayGetElem, JSONValue.ConvertJSONToFloat]⟩
  refine ⟨hlen, hne, ?_⟩
  rw [herr]
  simp

/-- C18 on `a = [1, 2]`, `b = [3, 4]` over the reals. -/
theorem C18_symmetric_witness :
    DotProduct [(1 : ℝ), 2] [3, 4] = DotProduct [(3 : ℝ), 4] [1, 2]
      ∧ Cosine Real.sqrt [(1 : ℝ), 2] [3, 4] = Cosine Real.sqrt [(3 : ℝ), 4] [1, 2] :=
  C18_symmetric Real.sqrt mul_comm [(1 : ℝ), 2] [3, 4]

/-- C19 on `a = [3, 4]`, `b = [-4, -3]` over the reals. -/
theorem C19_cosine_in_unit_interval_witness :
    (Cosine Real.sqrt [(3 : ℝ), 4] [-4, -3]).2 = none
      ∧ -1 ≤ (Cosine Real.sqrt [(3 : ℝ), 4] [-4, -3]).1
      ∧ (Cosine Real.sqrt [(3 : ℝ), 4] [-4, -3]).1 ≤ 1 :=
  C19_cosine_in_unit_interval [(3 : ℝ), 4] [-4, -3] rfl (by simp)
    ⟨3, by simp, by norm_num⟩ ⟨-4, by simp, by norm_num⟩

end expression
